import Mathlib

/-!
Verification development for the dimensional inventory model of
src/src/yeoda/yeoda.py (class eoDataCube and the module-level functions
match_dimension and merge_datacubes).

The embedding is shallow: a pandas GeoDataFrame becomes an explicit table of
rows (`Inventory`), Python exceptions become an `Except PyExc` result, and the
runtime `eval` of the filter-command string built by
eoDataCube.__filter_by_dimension is modelled by first checking the string the
source actually builds for syntactic well-formedness (the source never applies
`.format` to its template, so the comparison operator appears as the juxtaposed
name `expression[0]`, which CPython rejects with SyntaxError) and only then
applying the comparison the template evidently encodes.
-/

namespace Yeoda

/-- Calendar date (the `time` dimension values); ordered lexicographically,
mirroring datetime comparison. -/
structure Date where
  year : Nat
  month : Nat
  day : Nat
  deriving DecidableEq, Repr

/-- Lexicographic comparison of dates, as datetime objects compare. -/
def Date.cmp (a b : Date) : Ordering :=
  if a.year ≠ b.year then compare a.year b.year
  else if a.month ≠ b.month then compare a.month b.month
  else compare a.day b.day

/-- A cell value of the inventory table: a string, an integer, a timestamp, or
a null (pandas NaN / None), covering the value kinds the claims exercise. -/
inductive Val where
  | null : Val
  | str (s : String) : Val
  | int (z : Int) : Val
  | date (d : Date) : Val
  deriving DecidableEq, Repr

/-- Constructor rank, used to make cross-kind comparisons total.  The claims
only ever compare values of one kind (one typed dimension column), where this
coincides with the Python comparison on that column. -/
def Val.rank : Val → Nat
  | .null => 0
  | .str _ => 1
  | .int _ => 2
  | .date _ => 3

/-- Total comparison on cell values; within one kind it is the comparison
pandas applies to a homogeneous column. -/
def Val.cmp : Val → Val → Ordering
  | .str a, .str b => compare a b
  | .int a, .int b => compare a b
  | .date a, .date b => a.cmp b
  | a, b => compare a.rank b.rank

/-- The six comparison operators accepted by the filter engine
(the `expressions` argument of filter_by_dimension / split_by_dimension). -/
inductive Op where
  | eq | ne | lt | le | gt | ge
  deriving DecidableEq, Repr

/-- Elementwise application of one comparison operator, as a pandas column
comparison evaluates it on one cell. -/
def applyOp : Op → Val → Val → Bool
  | .eq, a, b => a = b
  | .ne, a, b => a ≠ b
  | .lt, a, b => a.cmp b = .lt
  | .le, a, b => a.cmp b ≠ .gt
  | .gt, a, b => a.cmp b = .gt
  | .ge, a, b => a.cmp b ≠ .lt

/-- Python exceptions the modelled code can raise. -/
inductive PyExc where
  /-- CPython rejects the evaluated source text before running it. -/
  | syntaxError
  /-- Subscripting None (`expressions[i]` with `expressions = None`),
  or iterating None. -/
  | typeError
  /-- List index out of range (`expressions[i]` past the end, `dcs[0]` on an
  empty list). -/
  | indexError
  /-- Missing column. -/
  | keyError (name : String)
  /-- pandas ValueError: `pd.concat` of no objects, mismatched column lengths,
  or a GeoSeries of the wrong length. -/
  | valueError
  /-- pandas ValueError from `bool(DataFrame)`: truth value ambiguous
  (raised by `elif inventory:` at yeoda.py line 56 and `if self.inventory:`
  at lines 111 and 163). -/
  | truthAmbiguous
  /-- The Exception raised at yeoda.py line 627 when a predicate's value part
  and expression part have unusable lengths. -/
  | lengthMismatch (nv ne : Nat)
  /-- Attribute lookup failure (module-level access to a name-mangled private
  method). -/
  | attributeError
  /-- pandas MergeError: no common columns to merge on. -/
  | mergeError
  deriving DecidableEq, Repr

/-- The inventory: the GeoDataFrame of the data cube, with named columns and
one row per file.  Every row of a well-formed inventory has one cell per
column. -/
structure Inventory where
  columns : List String
  rows : List (List Val)
  deriving DecidableEq, Repr

/-- Cell of row `i` at column `c` (none when the row or the column is
absent). -/
def Inventory.entry (inv : Inventory) (i : Nat) (c : String) : Option Val :=
  (inv.rows[i]?).bind (fun row => row[inv.columns.indexOf c]?)

/-- Column access `inventory[name]`: the list of the column's cells in row
order, or a KeyError when the column does not exist. -/
def Inventory.getColumn (inv : Inventory) (name : String) :
    Except PyExc (List Val) :=
  if inv.columns.contains name then
    .ok (inv.rows.map (fun row => row.getD (inv.columns.indexOf name) .null))
  else
    .error (.keyError name)

/-! ## Model of the `eval`ed filter command

eoDataCube.__filter_by_dimension builds `filter_cmd` as one of two fixed
string literals (yeoda.py lines 623 and 625) and passes it to `eval`
(line 628).  No `.format` call is applied to either template, so the intended
comparison operator is present only as the juxtaposed subscript expression
`expression[0]` sitting between `inventory[name]` and `value[0]`.  Python's
grammar has no production for two adjacent primary expressions, so compiling
either string raises SyntaxError before any filtering runs.  `pySyntaxOk`
checks exactly this: a closing bracket followed by whitespace and an
identifier that is not an operator-like keyword means two juxtaposed
primaries.  On an operator-substituted string such as
`inventory[inventory[name] >= value[0]]` the check passes. -/

/-- The exact string assigned to `filter_cmd` at yeoda.py line 623 (range
predicate branch). -/
def filter_cmd_range : String :=
  "inventory[(inventory[name] expression[0] value[0]) & (inventory[name] expression[1] value[1])]"

/-- The exact string assigned to `filter_cmd` at yeoda.py line 625 (exact
predicate branch). -/
def filter_cmd_exact : String :=
  "inventory[inventory[name] expression[0] value[0]]"

/-- Characters that may start or continue a Python identifier, restricted to
what the modelled strings contain. -/
def isIdentChar (c : Char) : Bool :=
  (97 ≤ c.toNat && c.toNat ≤ 122) || (65 ≤ c.toNat && c.toNat ≤ 90) || c = '_'

/-- Longest identifier prefix of a character list. -/
def takeIdent (l : List Char) : String :=
  String.mk (l.takeWhile isIdentChar)

/-- Python keywords that may legally follow a primary expression, so that a
bracket-space-keyword sequence is not a syntax error. -/
def pyBinaryKeywords : List String :=
  ["and", "or", "not", "in", "is", "if", "else", "for"]

/-- Scans for a closing bracket followed by whitespace and a non-keyword
identifier: two adjacent primary expressions, which CPython's parser
rejects. -/
def pyJuxtaposition : List Char → Bool
  | [] => false
  | ']' :: ' ' :: rest =>
      let rest2 := rest.dropWhile (· = ' ')
      let id := takeIdent rest2
      (id.length > 0 && !(pyBinaryKeywords.contains id)) || pyJuxtaposition rest
  | _ :: rest => pyJuxtaposition rest

/-- Whether CPython's parser accepts the command string (restricted to the
juxtaposition defect relevant to the modelled templates). -/
def pySyntaxOk (cmd : String) : Bool :=
  !(pyJuxtaposition cmd.data)

/-- Model of `eval(filter_cmd)`: the string is compiled first (SyntaxError
when it is ill-formed) and only then evaluated, producing the inventory the
command computes. -/
def pyEvalCmd (cmd : String) (run : Unit → Except PyExc Inventory) :
    Except PyExc Inventory :=
  if pySyntaxOk cmd then run () else .error .syntaxError

/-! ## The filter/split engine (eoDataCube.__filter_by_dimension)

Lines 583-636 of yeoda.py.  One predicate is a Python object that is either a
scalar or a tuple/list (`values[i]`), paired with an operator object of the
same shape (`expressions[i]`); the loop normalises scalars into one-element
lists (lines 616-620), dispatches on the lengths (lines 622-627), and runs
`inventory = eval(filter_cmd)` (line 628), overwriting the running inventory
instead of appending the pass's result to `filtered_inventories`, which
therefore stays the empty list it was initialised to at line 612. -/

/-- One predicate value: `values[i]`, a scalar or a tuple/list. -/
inductive PyVal where
  | scalar (v : Val) : PyVal
  | seq (vs : List Val) : PyVal
  deriving DecidableEq, Repr

/-- Lines 616-617: a scalar value is wrapped into a one-element list. -/
def PyVal.normalize : PyVal → List Val
  | .scalar v => [v]
  | .seq vs => vs

/-- One predicate expression: `expressions[i]`, a scalar operator or a
tuple/list of operators. -/
inductive PyOp where
  | scalar (o : Op) : PyOp
  | seq (os : List Op) : PyOp
  deriving DecidableEq, Repr

/-- Lines 619-620: a scalar expression is wrapped into a one-element list. -/
def PyOp.normalize : PyOp → List Op
  | .scalar o => [o]
  | .seq os => os

/-- The filtering the `filter_cmd` template encodes once the operator is
substituted: keep the rows on which every operator/bound pair holds on column
`name` (a missing column is a pandas KeyError). -/
def filterPass (inv : Inventory) (name : String) (vs : List Val)
    (os : List Op) : Except PyExc Inventory :=
  if inv.columns.contains name then
    let j := inv.columns.indexOf name
    .ok { columns := inv.columns,
          rows := inv.rows.filter (fun row =>
            (vs.zip os).all (fun p => applyOp p.2 (row.getD j .null) p.1)) }
  else
    .error (.keyError name)

/-- One iteration of the loop at lines 613-628: normalise the pair, pick the
template by the normalised lengths, raise the line-627 Exception on unusable
lengths, then `eval` the template (which, the template being unformatted,
raises SyntaxError; see `pySyntaxOk`). -/
def filterStep (name : String) (inv : Inventory) (value : PyVal)
    (expr : PyOp) : Except PyExc Inventory :=
  let vs := value.normalize
  let os := expr.normalize
  if vs.length = 2 ∧ os.length = 2 then
    pyEvalCmd filter_cmd_range (fun _ => filterPass inv name vs os)
  else if vs.length = 1 ∧ os.length = 1 then
    pyEvalCmd filter_cmd_exact (fun _ => filterPass inv name vs os)
  else
    .error (.lengthMismatch vs.length os.length)

/-- The loop over `range(n_filters)`, threading `inventory` through
`inventory = eval(filter_cmd)`.  The operator list is consumed in step with
the value list, modelling `expressions[i]`; exhausting it first is the
IndexError that indexing past its end raises. -/
def fbdLoop (name : String) :
    Inventory → List PyVal → List PyOp → Except PyExc Inventory
  | inv, [], _ => .ok inv
  | _, _ :: _, [] => .error .indexError
  | inv, v :: vs, e :: es => do
      fbdLoop name (← filterStep name inv v e) vs es

/-- Entry to the loop: line 615 subscripts `expressions`, so when the caller
passed `expressions=None` and there is at least one value, `None[0]` raises
TypeError before anything else. -/
def fbdLoopTop (name : String) (inv : Inventory) (values : List PyVal) :
    Option (List PyOp) → Except PyExc Inventory
  | none => if values.isEmpty then .ok inv else .error .typeError
  | some es => fbdLoop name inv values es

/-- Constructor path taken by `from_inventory` (lines 82-84 then 50-57)
restricted to what reaches the inventory: with no filepaths argument, a truthy
`dir_tree` short-circuits the `elif inventory:` test at line 56; without one,
`bool(GeoDataFrame)` raises pandas' truth-value-ambiguous ValueError.  Grid
and geometry handling of lines 75-80 is modelled in full in the reference
store model below; here the wrapped cube is identified with its inventory. -/
def fromInventoryLite (dirTreeTruthy : Bool) (inv : Inventory) :
    Except PyExc Inventory :=
  if dirTreeTruthy then .ok inv else .error .truthAmbiguous

/-- Model of `pd.concat(objs, ignore_index=True)` at line 635: concatenating
no objects is a ValueError; otherwise rows are stacked in order (the modelled
frames share their column list). -/
def pdConcat : List Inventory → Except PyExc Inventory
  | [] => .error .valueError
  | i0 :: rest => .ok { columns := i0.columns,
                        rows := (i0 :: rest).flatMap (·.rows) }

/-- Lines 654-658 (eoDataCube.__assign_inventory) at inventory level: in
place, the cube now holds `inv`; otherwise a new cube is built through
`from_inventory`. -/
def assignInventoryLite (dirTreeTruthy inPlace : Bool) (inv : Inventory) :
    Except PyExc Inventory :=
  if inPlace then .ok inv else fromInventoryLite dirTreeTruthy inv

/-- eoDataCube.filter_by_dimension (lines 221-243, split=False): run the loop
on a copy of the inventory, then concatenate `filtered_inventories` — the
list initialised at line 612 and never appended to — and assign the result. -/
def filter_by_dimension (dirTreeTruthy : Bool) (inv : Inventory)
    (values : List PyVal) (expressions : Option (List PyOp)) (name : String)
    (inPlace : Bool) : Except PyExc Inventory := do
  let _inventory ← fbdLoopTop name inv values expressions
  let filteredInventories : List Inventory := []
  let cat ← pdConcat filteredInventories
  assignInventoryLite dirTreeTruthy inPlace cat

/-- eoDataCube.split_by_dimension (lines 245-264, split=True): run the loop,
then wrap each element of `filtered_inventories` — still the empty list —
through `from_inventory` (lines 630-633). -/
def split_by_dimension (dirTreeTruthy : Bool) (inv : Inventory)
    (values : List PyVal) (expressions : Option (List PyOp)) (name : String) :
    Except PyExc (List Inventory) := do
  let _inventory ← fbdLoopTop name inv values expressions
  let filteredInventories : List Inventory := []
  filteredInventories.mapM (fromInventoryLite dirTreeTruthy)

/-! ## Inventory construction (eoDataCube.__inventory_from_filepaths)

Lines 532-581 of yeoda.py.  The method builds a Python dict `inventory`
mapping column names to column data: a list of cells, filled per translated
file, except that the loop over the untranslatable filepaths (lines 572-577)
replaces every non-filepath column wholesale with the scalar `None`
(`inventory[col] = None`), which the GeoDataFrame constructor broadcasts to
every row.  A translator is any function from a basename to a field mapping
that may fail (modelled by `Except Unit`). -/

/-- One column of the dict under construction: a list of cells, or the scalar
`None` that line 577 assigns and pandas broadcasts. -/
inductive Col where
  | cells (vs : List Val) : Col
  | broadcastNone : Col
  deriving DecidableEq, Repr

/-- The dict `inventory`: keys in insertion order (Python dicts preserve it),
each key unique. -/
abbrev InvDict := List (String × Col)

/-- Keys of the dict, in order. -/
def dictKeys (d : InvDict) : List String := d.map Prod.fst

/-- The per-pair effect of `inventory[k].append(v)`: the column at key `k`
gets the cell appended.  In the modelled flow the column is always a cell
list when appended to; the broadcast-None case is unreachable and left
unchanged. -/
def appendCell (k : String) (v : Val) (p : String × Col) : String × Col :=
  if p.1 = k then
    (p.1, match p.2 with
          | .cells vs => .cells (vs ++ [v])
          | .broadcastNone => Col.broadcastNone)
  else p

/-- Appends one cell to a column (`inventory[key].append(value)`). -/
def dictAppend (d : InvDict) (k : String) (v : Val) : InvDict :=
  d.map (appendCell k v)

/-- os.path.basename: the part of the path after the last slash. -/
def basename (s : String) : String :=
  (s.splitOn "/").getLastD s

/-- A translator (smart filename creator): called on a basename, it yields
the fields mapping of the SmartFilename or fails with any error. -/
abbrev Translator := String → Except Unit (List (String × Val))

/-- Lines 560-568: whether a translated key is kept.  `if self.dimensions:`
is a truthiness test, so an empty dimension list behaves like none. -/
def keepKey (dims0 : Option (List String)) (k : String) : Bool :=
  match dims0 with
  | some (d :: ds) => (d :: ds).contains k
  | _ => true

/-- Lines 559-568: record one field of a successfully translated file.  A new
key is first given an empty column (`inventory[key] = []`), then the value is
appended. -/
def addField (dims0 : Option (List String)) (d : InvDict)
    (kv : String × Val) : InvDict :=
  if keepKey dims0 kv.1 then
    let d2 := if (dictKeys d).contains kv.1 then d else d ++ [(kv.1, .cells [])]
    dictAppend d2 kv.1 kv.2
  else d

/-- State after the translation loop: the dict built so far and the
untranslatable filepaths collected at line 555. -/
structure P1State where
  dict : InvDict
  untrans : List String
  deriving DecidableEq, Repr

/-- Lines 551-568, one file: on translator failure the filepath goes to
`untrans_filepaths` and the dict is untouched; on success the filepath cell is
appended first, then each field in order. -/
def p1Step (f : Translator) (dims0 : Option (List String)) (st : P1State)
    (fp : String) : P1State :=
  match f (basename fp) with
  | .error _ => { st with untrans := st.untrans ++ [fp] }
  | .ok fields =>
      { st with dict := fields.foldl (addField dims0)
                          (dictAppend st.dict "filepath" (.str fp)) }

/-- The dict a fresh run starts from: `inventory = dict();
inventory['filepath'] = []` (lines 544-545). -/
def initDict : InvDict := [("filepath", .cells [])]

/-- Lines 548-570: translate every file when a translator was given
(`if create_smart_filename:`); otherwise every filepath is untranslatable
(line 570). -/
def phase1 (f : Option Translator) (dims0 : Option (List String))
    (fps : List String) : P1State :=
  match f with
  | some f0 => fps.foldl (p1Step f0 dims0) ⟨initDict, []⟩
  | none => ⟨initDict, fps⟩

/-- The per-pair effect of one iteration of lines 573-577: the filepath
column gets the filepath appended, every other column is replaced by the
scalar None. -/
def nullifyCell (fp : String) (p : String × Col) : String × Col :=
  if p.1 = "filepath" then
    (p.1, match p.2 with
          | .cells vs => .cells (vs ++ [.str fp])
          | .broadcastNone => Col.broadcastNone)
  else (p.1, Col.broadcastNone)

/-- Lines 572-577, one untranslatable file. -/
def p2Step (d : InvDict) (fp : String) : InvDict :=
  d.map (nullifyCell fp)

/-- The loop over `untrans_filepaths` (lines 572-577). -/
def phase2 (d : InvDict) (untrans : List String) : InvDict :=
  untrans.foldl p2Step d

/-- Model of `GeoDataFrame(inventory, columns=...)` at line 580 (the columns
argument equals the dict keys): all cell-list columns must have one common
length, which becomes the row count; a scalar None column broadcasts to null
in every row; mismatched list lengths are a pandas ValueError. -/
def buildFrame (d : InvDict) : Except PyExc Inventory :=
  match d.filterMap (fun p =>
      match p.2 with
      | .cells vs => some vs.length
      | .broadcastNone => none) with
  | [] => .ok { columns := dictKeys d, rows := [] }
  | n :: rest =>
      if rest.all (· = n) then
        .ok { columns := dictKeys d,
              rows := (List.range n).map (fun i =>
                d.map (fun p =>
                  match p.2 with
                  | .cells vs => vs.getD i .null
                  | .broadcastNone => .null)) }
      else .error .valueError

/-- eoDataCube.__inventory_from_filepaths (lines 532-581).  Returns none when
`self.filepaths` is falsy (the method leaves the cube untouched); otherwise
the assigned dimension list (dict keys with the first `filepath`
removed, line 581) and the built inventory. -/
def inventory_from_filepaths (f : Option Translator)
    (dims0 : Option (List String)) (fps : List String) :
    Except PyExc (Option (List String × Inventory)) :=
  if fps.isEmpty then .ok none
  else
    match buildFrame (phase2 (phase1 f dims0 fps).dict
        (phase1 f dims0 fps).untrans) with
    | .error e => .error e
    | .ok inv =>
        .ok (some ((dictKeys (phase2 (phase1 f dims0 fps).dict
            (phase1 f dims0 fps).untrans)).erase "filepath", inv))

/-! ## Temporal binning (eoDataCube.get_yearly_dcs, lines 352-397) -/

/-- Access `timestamp.year`-style attributes: only a timestamp has them, so a
non-date cell raises AttributeError. -/
def asDate : Val → Except PyExc Date
  | .date d => .ok d
  | _ => .error .attributeError

/-- First-occurrence deduplication of the keys a Python dict collapses when
prefilled from a list (lines 370-372). -/
def dedupNat (l : List Nat) : List Nat :=
  l.foldl (fun acc y => if acc.contains y then acc else acc ++ [y]) []

/-- Lines 368-376 (explicit year list): prefill one empty bucket per requested
year, then append each timestamp whose year was requested. -/
def groupExplicit (years : List Nat) (col : List Val) :
    Except PyExc (List (Nat × List Date)) :=
  col.foldlM (fun acc v => do
    let d ← asDate v
    if years.contains d.year then
      pure (acc.map (fun p => if p.1 = d.year then (p.1, p.2 ++ [d]) else p))
    else pure acc)
    ((dedupNat years).map (fun y => (y, [])))

/-- Lines 377-386 (no year list): buckets are created on first sight of a
year, in first-seen order, and every timestamp is appended to its year. -/
def groupAuto (col : List Val) : Except PyExc (List (Nat × List Date)) :=
  col.foldlM (fun acc v => do
    let d ← asDate v
    if (acc.map Prod.fst).contains d.year then
      pure (acc.map (fun p => if p.1 = d.year then (p.1, p.2 ++ [d]) else p))
    else pure (acc ++ [(d.year, [d])]))
    []

/-- Bucket lookup `timestamps_years[year]`. -/
def bucketOf (g : List (Nat × List Date)) (y : Nat) : List Date :=
  ((g.find? (fun p => p.1 == y)).map Prod.snd).getD []

/-- Python `min` over a list of timestamps: ValueError on an empty sequence,
otherwise the least element (first of equals). -/
def pyMinDate : List Date → Except PyExc Date
  | [] => .error .valueError
  | d :: ds => .ok (ds.foldl (fun a b => if Date.cmp b a = .lt then b else a) d)

/-- Python `max` over a list of timestamps: ValueError on an empty sequence,
otherwise the greatest element (first of equals). -/
def pyMaxDate : List Date → Except PyExc Date
  | [] => .error .valueError
  | d :: ds => .ok (ds.foldl (fun a b => if Date.cmp b a = .gt then b else a) d)

/-- eoDataCube.get_yearly_dcs (lines 352-397): bucket the time column by
calendar year — requested years only when a truthy year list is given,
otherwise all years seen, sorted ascending — then one
`(min_in_year, max_in_year)` range predicate with `(>=, <=)` per year, passed
to split_by_dimension. -/
def get_yearly_dcs (dirTreeTruthy : Bool) (inv : Inventory) (name : String)
    (years0 : Option (List Nat)) : Except PyExc (List Inventory) := do
  let col ← inv.getColumn name
  match years0 with
  | some (y :: ys) => do
      let g ← groupExplicit (y :: ys) col
      let vals ← (y :: ys).mapM (fun yr => do
        let lo ← pyMinDate (bucketOf g yr)
        let hi ← pyMaxDate (bucketOf g yr)
        pure (PyVal.seq [.date lo, .date hi]))
      split_by_dimension dirTreeTruthy inv vals
        (some (List.replicate (y :: ys).length (PyOp.seq [.ge, .le]))) name
  | _ => do
      let g ← groupAuto col
      let years := List.insertionSort (· ≤ ·) (g.map Prod.fst)
      let vals ← years.mapM (fun yr => do
        let lo ← pyMinDate (bucketOf g yr)
        let hi ← pyMaxDate (bucketOf g yr)
        pure (PyVal.seq [.date lo, .date hi]))
      split_by_dimension dirTreeTruthy inv vals
        (some (List.replicate years.length (PyOp.seq [.ge, .le]))) name

/-! ## Cross-cube operations (module level, lines 684-739) -/

/-- pandas `pd.unique`: deduplication preserving first-occurrence order. -/
def pdUnique (l : List Val) : List Val :=
  l.foldl (fun acc v => if acc.contains v then acc else acc ++ [v]) []

/-- match_dimension (lines 684-713): gather every cube's values on the
dimension, deduplicate preserving first occurrence, then filter every cube by
one equality predicate per unique value. -/
def match_dimension (dirTreeTruthy : Bool) (invs : List Inventory)
    (name : String) (inPlace : Bool) : Except PyExc (List Inventory) := do
  let cols ← invs.mapM (fun i => i.getColumn name)
  let uniqueValues := pdUnique cols.flatten
  invs.mapM (fun i =>
    filter_by_dimension dirTreeTruthy i (uniqueValues.map PyVal.scalar)
      (some (uniqueValues.map (fun _ => PyOp.scalar .eq))) name inPlace)

/-- pandas `DataFrame.merge(other, on=key)`: an inner join.  With `on=None`
the join keys are the columns common to both frames (no common column is a
MergeError); with an explicit key the other shared columns are kept from both
sides under `_x`/`_y` suffixes.  Inner-join row order follows the left frame,
then the right; duplicate key matches multiply, nothing is deduplicated. -/
def pdMerge (left right : Inventory) (on0 : Option String) :
    Except PyExc Inventory :=
  match on0 with
  | none =>
      let keys := left.columns.filter (fun c => right.columns.contains c)
      if keys.isEmpty then .error .mergeError
      else
        let rightExtra := right.columns.filter
          (fun c => !(left.columns.contains c))
        .ok { columns := left.columns ++ rightExtra,
              rows := left.rows.flatMap (fun l =>
                (right.rows.filter (fun r => keys.all (fun k =>
                    l[left.columns.indexOf k]? = r[right.columns.indexOf k]?))).map
                  (fun r => l ++ rightExtra.map (fun c =>
                    (r[right.columns.indexOf c]?).getD .null))) }
  | some n =>
      if !(left.columns.contains n) || !(right.columns.contains n) then
        .error (.keyError n)
      else
        let commonOther := left.columns.filter
          (fun c => c ≠ n && right.columns.contains c)
        let rightKept := right.columns.filter (fun c => c ≠ n)
        .ok { columns :=
                left.columns.map
                  (fun c => if commonOther.contains c then c ++ "_x" else c) ++
                rightKept.map
                  (fun c => if commonOther.contains c then c ++ "_y" else c),
              rows := left.rows.flatMap (fun l =>
                (right.rows.filter (fun r =>
                    l[left.columns.indexOf n]? = r[right.columns.indexOf n]?)).map
                  (fun r => l ++ rightKept.map (fun c =>
                    (r[right.columns.indexOf c]?).getD .null))) }

/-- merge_datacubes (lines 716-739): fold the later cubes into the first with
`DataFrame.merge`, then `return dcs[0].__assign_inventory(...)`.  That return
statement sits at module level, outside the class body, so the class-private
name is not mangled there: the instance has no attribute named
`__assign_inventory` (only `_eoDataCube__assign_inventory`), and the lookup
raises AttributeError after the merge loop has run.  With a single input
cube, `dcs = dcs[1:]` leaves an empty list and `dcs[0]` is an IndexError. -/
def merge_datacubes (invs : List Inventory) (name0 : Option String) :
    Except PyExc Inventory :=
  match invs with
  | [] => .error .indexError
  | inv0 :: rest => do
      let _merged ← rest.foldlM (fun a b => pdMerge a b name0) inv0
      match rest with
      | [] => .error .indexError
      | _ :: _ => .error .attributeError

/-- eoDataCube.merge (lines 425-443): delegates to merge_datacubes on the
pair. -/
def dc_merge (a b : Inventory) (name0 : Option String) :
    Except PyExc Inventory :=
  merge_datacubes [a, b] name0

/-! ## Dimension bookkeeping (eoDataCube.add_dimension, C9) -/

/-- A data cube reduced to the two fields the dimension-consistency invariant
speaks about. -/
structure DCube where
  dimensions : List String
  inventory : Inventory
  deriving DecidableEq, Repr

/-- Model of `inventory.assign(**{name: GeoSeries(values, index=...)})` at
line 140: a wrong-length values list is a ValueError; an existing column is
replaced, a new one appended on the right. -/
def pdAssign (inv : Inventory) (name : String) (values : List Val) :
    Except PyExc Inventory :=
  if values.length ≠ inv.rows.length then .error .valueError
  else if inv.columns.contains name then
    .ok { columns := inv.columns,
          rows := (inv.rows.zip values).map (fun p =>
            p.1.set (inv.columns.indexOf name) p.2) }
  else
    .ok { columns := inv.columns ++ [name],
          rows := (inv.rows.zip values).map (fun p => p.1 ++ [p.2]) }

/-- eoDataCube.add_dimension (lines 119-141): build the extended table, then
__assign_inventory.  In place, only `self.inventory` is reassigned
(line 655): the dimensions list is not touched.  Not in place, the
from_inventory constructor derives the new cube's dimensions as the table's
columns minus `filepath` (lines 63-66). -/
def add_dimension (dirTreeTruthy : Bool) (dc : DCube) (name : String)
    (values : List Val) (inPlace : Bool) : Except PyExc DCube := do
  let inv2 ← pdAssign dc.inventory name values
  if inPlace then
    .ok { dc with inventory := inv2 }
  else do
    let i ← fromInventoryLite dirTreeTruthy inv2
    .ok { dimensions := i.columns.erase "filepath", inventory := i }

/-- The consistency invariant of C9 as a decidable check: the dimensions list
and the inventory columns agree up to the `filepath` and `geometry`
columns. -/
def dimsConsistentB (dc : DCube) : Bool :=
  dc.dimensions.all (fun c => dc.inventory.columns.contains c &&
    !(c = "filepath") && !(c = "geometry")) &&
  dc.inventory.columns.all (fun c => c = "filepath" || c = "geometry" ||
    dc.dimensions.contains c)

/-! ## Reference store model (clone and in-place semantics)

Claims about aliasing — `clone()` sharing no mutable state, in-place versus
copy in `__assign_inventory` — need object identity, so here the mutable
Python objects (lists, frames, grid, directory tree) live in an explicit
store of numbered cells and a cube holds cell numbers.  A translator function
is not a mutable data object (`copy.deepcopy` returns a function unchanged);
it is carried as an immutable token.  Fresh objects take the next free cell
number, so two objects are aliased exactly when their numbers coincide. -/

/-- A heap object: a list of strings (filepaths / a directory tree's file
register), a dimension-name list, an inventory frame, an opaque grid, or a
directory tree holding a reference to its file register. -/
inductive HObj where
  | strsO (l : List String) : HObj
  | dimsO (l : List String) : HObj
  | invO (t : Inventory) : HObj
  | gridO (g : Nat) : HObj
  | treeO (registerRef : Nat) : HObj
  deriving DecidableEq, Repr

/-- The store: numbered cells plus the next free number. -/
structure Store where
  mem : List (Nat × HObj)
  next : Nat
  deriving DecidableEq, Repr

/-- Read a cell (latest write wins). -/
def Store.lookup (σ : Store) (r : Nat) : Option HObj :=
  (σ.mem.find? (fun p => p.1 == r)).map Prod.snd

/-- Mutate the object in cell `r`. -/
def Store.write (σ : Store) (r : Nat) (o : HObj) : Store :=
  { mem := (r, o) :: σ.mem, next := σ.next }

/-- Create a fresh object. -/
def Store.alloc (σ : Store) (o : HObj) : Nat × Store :=
  (σ.next, { mem := (σ.next, o) :: σ.mem, next := σ.next + 1 })

/-- A data cube as a record of references: the object identity of the cube
itself plus the cells holding its attributes (None-valued attributes carry no
cell). -/
structure DCRef where
  objId : Nat
  filepathsRef : Option Nat
  dimsRef : Option Nat
  invRef : Option Nat
  gridRef : Option Nat
  treeRef : Option Nat
  translator : Option Nat
  deriving DecidableEq, Repr

/-- Python truthiness of an attribute holding a reference: None and empty
lists are falsy, grids and trees truthy, and `bool` of a GeoDataFrame raises
pandas' truth-value-ambiguous ValueError (the line 56 crash). -/
def refTruthy (σ : Store) : Option Nat → Except PyExc Bool
  | none => .ok false
  | some r =>
      match σ.lookup r with
      | some (.strsO l) => .ok (!l.isEmpty)
      | some (.dimsO l) => .ok (!l.isEmpty)
      | some (.invO _) => .error .truthAmbiguous
      | some (.gridO _) => .ok true
      | some (.treeO _) => .ok true
      | none => .ok false

/-- The file-register reference of a directory tree
(`dir_tree.file_register`, line 55 — the cube then shares the tree's
list). -/
def registerOf (σ : Store) : Option Nat → Option Nat
  | some r => match σ.lookup r with
              | some (.treeO rr) => some rr
              | _ => none
  | none => none

/-- The string list an attribute holds (empty for None, mirroring the falsy
no-op paths). -/
def readStrs (σ : Store) : Option Nat → List String
  | some r => match σ.lookup r with
              | some (.strsO l) => l
              | _ => []
  | none => []

/-- The dimension-name list an attribute holds. -/
def readDimsVal (σ : Store) : Option Nat → Option (List String)
  | some r => match σ.lookup r with
              | some (.dimsO l) => some l
              | _ => none
  | none => none

/-- Dereference an optional attribute. -/
def readRef (σ : Store) : Option Nat → Option HObj
  | none => none
  | some r => σ.lookup r

/-- eoDataCube.__init__ (lines 23-80) over the store.  `transFn` is the
behaviour of the translator the token `translTok` names, `geomOf` the
external boundary-extraction collaborator used by the line 79 geometry
derivation. -/
def eoDataCubeInit (transFn : Translator) (geomOf : String → Val) (σ0 : Store)
    (filepaths grid dirTree : Option Nat) (translTok : Option Nat)
    (dims inv : Option Nat) : Except PyExc (Store × DCRef) := do
  let t1 ← refTruthy σ0 filepaths
  let fpsR ←
    if t1 then pure filepaths
    else do
      let t2 ← refTruthy σ0 dirTree
      if t2 then pure (registerOf σ0 dirTree)
      else do
        let t3 ← refTruthy σ0 inv
        if t3 then pure inv else pure none
  let td ← refTruthy σ0 dims
  let (σ1, dimsR) ←
    if td then pure (σ0, dims)
    else
      match inv with
      | some ri =>
          match σ0.lookup ri with
          | some (.invO t) =>
              let (rd, σd) := σ0.alloc (.dimsO (t.columns.erase "filepath"))
              pure (σd, some rd)
          | _ => pure (σ0, none)
      | none => pure (σ0, none)
  let (σ3, dimsR2, invR) ←
    match inv with
    | some ri => pure (σ1, dimsR, some ri)
    | none => do
        let transArg := if translTok.isSome then some transFn else none
        match ← inventory_from_filepaths transArg (readDimsVal σ1 dimsR)
                (readStrs σ1 fpsR) with
        | none => pure (σ1, dimsR, none)
        | some (dl, it) =>
            let (rd, σa) := σ1.alloc (.dimsO dl)
            let (rv, σb) := σa.alloc (.invO it)
            pure (σb, some rd, some rv)
  let tg ← refTruthy σ3 grid
  let (σ4, gridR, invR2) ←
    if tg then pure (σ3, grid, invR)
    else
      match invR with
      | some rv =>
          match σ3.lookup rv with
          | some (.invO t) =>
              if t.columns.contains "geometry" then pure (σ3, none, invR)
              else
                match fpsR with
                | none => Except.error .typeError
                | some rf => do
                    let geoms := (readStrs σ3 (some rf)).map geomOf
                    let t2 ← pdAssign t "geometry" geoms
                    let (rv2, σ5) := σ3.alloc (.invO t2)
                    pure (σ5, none, some rv2)
          | _ => pure (σ3, none, invR)
      | none => pure (σ3, none, invR)
  pure ({ mem := σ4.mem, next := σ4.next + 1 },
        { objId := σ4.next, filepathsRef := fpsR, dimsRef := dimsR2,
          invRef := invR2, gridRef := gridR, treeRef := dirTree,
          translator := translTok })

/-- `copy.deepcopy` of one attribute: None stays None, a directory tree is
copied together with its file register (the register copy takes the next free
cell, the tree copy the one after), every other object is duplicated into a
fresh cell; a function would be returned unchanged (handled by the token
field, not here). -/
def deepcopyObj (σ : Store) : Option Nat → Store × Option Nat
  | none => (σ, none)
  | some r =>
      match σ.lookup r with
      | some (.treeO rr) =>
          (((σ.alloc ((σ.lookup rr).getD (.strsO []))).2.alloc
              (.treeO σ.next)).2, some (σ.next + 1))
      | some o => ((σ.alloc o).2, some σ.next)
      | none => (σ, none)

/-- eoDataCube.__deepcopy__ (lines 660-681), which clone() (lines 465-475)
invokes through copy.deepcopy: deep-copy filepaths, grid, dir_tree,
dimensions and inventory in that order, take the translator reference as is,
and build a new cube through the constructor. -/
def deepcopyDC (transFn : Translator) (geomOf : String → Val) (σ : Store)
    (dc : DCRef) : Except PyExc (Store × DCRef) :=
  let (σ1, fps2) := deepcopyObj σ dc.filepathsRef
  let (σ2, grid2) := deepcopyObj σ1 dc.gridRef
  let (σ3, tree2) := deepcopyObj σ2 dc.treeRef
  let (σ4, dims2) := deepcopyObj σ3 dc.dimsRef
  let (σ5, inv2) := deepcopyObj σ4 dc.invRef
  eoDataCubeInit transFn geomOf σ5 fps2 grid2 tree2 dc.translator dims2 inv2

/-- eoDataCube.__assign_inventory (lines 638-658) over the store: in place,
`self.inventory = inventory` repoints the cube's inventory attribute and
returns the same object; otherwise from_inventory runs the constructor with
the result table, the receiver's grid and the receiver's dir_tree. -/
def assign_inventory (transFn : Translator) (geomOf : String → Val)
    (σ : Store) (dc : DCRef) (invNew : Nat) (inPlace : Bool) :
    Except PyExc (Store × DCRef) :=
  if inPlace then .ok (σ, { dc with invRef := some invNew })
  else eoDataCubeInit transFn geomOf σ none dc.gridRef dc.treeRef none none
    (some invNew)

/-- The cells of the mutable state C8 names: inventory table, dimensions
list, grid. -/
def mutRefs (dc : DCRef) : List Nat :=
  [dc.invRef, dc.dimsRef, dc.gridRef].filterMap id

/-- Store extension: the second store allocates at least as far and agrees on
every cell the first one could have allocated. -/
def StoreLe (σ σ2 : Store) : Prop :=
  σ.next ≤ σ2.next ∧ ∀ r, r < σ.next → σ2.lookup r = σ.lookup r

/-! ## Predicate shape (C5) -/

/-- A well-formed predicate pair: both parts normalise to length 1, or both
to length 2. -/
def wellFormedPred (v : PyVal) (e : PyOp) : Prop :=
  (v.normalize.length = 1 ∧ e.normalize.length = 1) ∨
  (v.normalize.length = 2 ∧ e.normalize.length = 2)

/-- The mismatch shapes C5 names: one part of length 1 against one of
length 2, or either part longer than 2. -/
def claimMismatched (v : PyVal) (e : PyOp) : Prop :=
  (v.normalize.length = 1 ∧ e.normalize.length = 2) ∨
  (v.normalize.length = 2 ∧ e.normalize.length = 1) ∨
  2 < v.normalize.length ∨ 2 < e.normalize.length

instance (v : PyVal) (e : PyOp) : Decidable (wellFormedPred v e) := by
  unfold wellFormedPred
  exact inferInstance

instance (v : PyVal) (e : PyOp) : Decidable (claimMismatched v e) := by
  unfold claimMismatched
  exact inferInstance

/-! ## Untranslatable rows (C3) -/

/-- Row `i` carries the identifier `fp` and a null in every dimension
column. -/
def rowIsUntranslatable (inv : Inventory) (i : Nat) (fp : String) : Prop :=
  inv.entry i "filepath" = some (.str fp) ∧
  ∀ c ∈ inv.columns, c ≠ "filepath" → inv.entry i c = some Val.null

/-- Structural invariant of the dict under construction: keys are unique and
a filepath cell-list column is present. -/
def DictInv (d : InvDict) : Prop :=
  (dictKeys d).Nodup ∧ ∃ l, ("filepath", Col.cells l) ∈ d

/-! ## Concrete instances used by the claim theorems and witnesses -/

/-- Two files with polarisations VV and VH. -/
def invPol : Inventory :=
  { columns := ["filepath", "pol"],
    rows := [[.str "a.tif", .str "VV"], [.str "b.tif", .str "VH"]] }

/-- Four files dated 2016-01-01, 2016-01-15, 2016-02-10 and 2017-03-01 (the
spec's yearly-split scenario). -/
def invTime : Inventory :=
  { columns := ["filepath", "time"],
    rows := [[.str "f1.tif", .date ⟨2016, 1, 1⟩],
             [.str "f2.tif", .date ⟨2016, 1, 15⟩],
             [.str "f3.tif", .date ⟨2016, 2, 10⟩],
             [.str "f4.tif", .date ⟨2017, 3, 1⟩]] }

/-- A one-file cube sharing the time dimension with `invTime`. -/
def invTimeB : Inventory :=
  { columns := ["filepath", "time"],
    rows := [[.str "b.tif", .date ⟨2018, 1, 1⟩]] }

/-- A translator that always succeeds with one `time` field. -/
def okTranslator : Translator := fun _ => .ok [("time", .int 1)]

/-- The cube built from one file through `okTranslator`. -/
def c9Base : DCube :=
  { dimensions := ["time"],
    inventory := { columns := ["filepath", "time"],
                   rows := [[.str "a.tif", .int 1]] } }

/-- The cube after adding a `cloud` dimension in place: the inventory gains
the column, the dimensions list does not. -/
def c9After : DCube :=
  { dimensions := ["time"],
    inventory := { columns := ["filepath", "time", "cloud"],
                   rows := [[.str "a.tif", .int 1, .int 7]] } }

/-- The inventory the spec's translator-failure scenario produces: five rows,
only the filepath column. -/
def c3Frame : Inventory :=
  { columns := ["filepath"],
    rows := [[.str "f1"], [.str "f2"], [.str "f3"], [.str "f4"],
             [.str "f5"]] }

/-- A four-object store holding one cube's filepaths, dimensions, inventory
and grid. -/
def c8Store : Store :=
  { mem := [(0, .strsO ["a.tif"]), (1, .dimsO ["time"]), (2, .invO invTime),
            (3, .gridO 5)],
    next := 4 }

/-- The cube whose attributes live in `c8Store`. -/
def c8DC : DCRef :=
  { objId := 10, filepathsRef := some 0, dimsRef := some 1, invRef := some 2,
    gridRef := some 3, treeRef := none, translator := some 77 }

/-- An inventory carrying a geometry column, as the constructor leaves it
after add_geometry_from_filepaths. -/
def invGeo : Inventory :=
  { columns := ["filepath", "time", "geometry"],
    rows := [[.str "a.tif", .int 1, .null]] }

/-- A store holding a reduced-capability cube: its dimensions object is the
empty list (every filename translation failed). -/
def c8bStore : Store :=
  { mem := [(0, .strsO ["a.tif"]), (1, .dimsO []), (2, .invO invGeo),
            (3, .gridO 5)],
    next := 4 }

/-- The reduced-capability cube whose attributes live in `c8bStore`. -/
def c8bDC : DCRef :=
  { objId := 10, filepathsRef := some 0, dimsRef := some 1, invRef := some 2,
    gridRef := some 3, treeRef := none, translator := some 77 }

/-- The store produced by cloning the reduced-capability cube. -/
def c8bResStore : Store :=
  { mem := [(8, .dimsO ["time", "geometry"]), (7, .invO invGeo),
            (6, .dimsO []), (5, .gridO 5), (4, .strsO ["a.tif"]),
            (0, .strsO ["a.tif"]), (1, .dimsO []), (2, .invO invGeo),
            (3, .gridO 5)],
    next := 10 }

/-- The cube produced by cloning the reduced-capability cube. -/
def c8bResDC : DCRef :=
  { objId := 9, filepathsRef := some 4, dimsRef := some 8, invRef := some 7,
    gridRef := some 5, treeRef := none, translator := some 77 }

/-- A store holding a cube with an empty filepaths list, no grid and no
directory tree. -/
def c8cStore : Store :=
  { mem := [(0, .strsO []), (1, .dimsO ["time"]), (2, .invO invGeo)],
    next := 3 }

/-- The empty-filepaths cube whose attributes live in `c8cStore`. -/
def c8cDC : DCRef :=
  { objId := 10, filepathsRef := some 0, dimsRef := some 1, invRef := some 2,
    gridRef := none, treeRef := none, translator := none }

/-- A store holding a cube with a directory tree, plus a second inventory to
assign. -/
def c10Store : Store :=
  { mem := [(1, .treeO 2), (2, .strsO ["x.tif"]), (3, .invO invTime),
            (4, .gridO 9), (5, .invO invTimeB)],
    next := 6 }

/-- The receiving cube of the concrete `__assign_inventory` run. -/
def c10DC : DCRef :=
  { objId := 0, filepathsRef := some 2, dimsRef := none, invRef := some 3,
    gridRef := some 4, treeRef := some 1, translator := none }

end Yeoda

namespace Yeoda

/-! ## Theorems -/

/-- The unformatted range template is rejected by the Python parser. -/
theorem pySyntaxOk_range : pySyntaxOk filter_cmd_range = false := by rfl

/-- The unformatted exact template is rejected by the Python parser. -/
theorem pySyntaxOk_exact : pySyntaxOk filter_cmd_exact = false := by rfl

/-- Evaluating the range template raises SyntaxError whatever it would have
computed. -/
theorem pyEvalCmd_range (run : Unit → Except PyExc Inventory) :
    pyEvalCmd filter_cmd_range run = .error .syntaxError := by
  simp [pyEvalCmd, pySyntaxOk_range]

/-- Evaluating the exact template raises SyntaxError whatever it would have
computed. -/
theorem pyEvalCmd_exact (run : Unit → Except PyExc Inventory) :
    pyEvalCmd filter_cmd_exact run = .error .syntaxError := by
  simp [pyEvalCmd, pySyntaxOk_exact]

/-- Every iteration of the filter loop raises: SyntaxError on a well-formed
predicate (the template is never formatted), the line-627 Exception
otherwise. -/
theorem filterStep_error (name : String) (inv : Inventory) (v : PyVal)
    (e : PyOp) :
    ∃ ex, filterStep name inv v e = .error ex ∧
      (wellFormedPred v e → ex = .syntaxError) ∧
      (¬ wellFormedPred v e →
        ex = .lengthMismatch v.normalize.length e.normalize.length) := by
  unfold filterStep
  by_cases h2 : v.normalize.length = 2 ∧ e.normalize.length = 2
  · exact ⟨.syntaxError, by simp [h2, pyEvalCmd_range], fun _ => rfl,
      fun hn => absurd (Or.inr h2) hn⟩
  · by_cases h1 : v.normalize.length = 1 ∧ e.normalize.length = 1
    · exact ⟨.syntaxError, by simp [h2, h1, pyEvalCmd_exact], fun _ => rfl,
        fun hn => absurd (Or.inl h1) hn⟩
    · refine ⟨.lengthMismatch v.normalize.length e.normalize.length,
        by simp [h2, h1], fun hw => ?_, fun _ => rfl⟩
      rcases hw with h | h
      · exact absurd h h1
      · exact absurd h h2

/-- The filter loop on a first predicate is the bind of its first step. -/
theorem fbdLoop_cons_error (name : String) (inv : Inventory) (v : PyVal)
    (vs : List PyVal) (e : PyOp) (es : List PyOp) (ex : PyExc)
    (hex : filterStep name inv v e = .error ex) :
    fbdLoop name inv (v :: vs) (e :: es) = .error ex := by
  have h : fbdLoop name inv (v :: vs) (e :: es) =
      bind (filterStep name inv v e) (fun i2 => fbdLoop name i2 vs es) := rfl
  rw [h, hex]
  rfl

/-- With at least one predicate, the loop entry always errors. -/
theorem fbdLoopTop_error_cons (name : String) (inv : Inventory) (v : PyVal)
    (vs : List PyVal) (exprs : Option (List PyOp)) :
    ∃ ex, fbdLoopTop name inv (v :: vs) exprs = .error ex := by
  match exprs with
  | none => exact ⟨.typeError, rfl⟩
  | some [] => exact ⟨.indexError, rfl⟩
  | some (e :: es) =>
      obtain ⟨ex, hex, -, -⟩ := filterStep_error name inv v e
      exact ⟨ex, fbdLoop_cons_error name inv v vs e es ex hex⟩

/-- With at least one predicate and a well-formed first predicate, the loop
entry raises SyntaxError. -/
theorem fbdLoopTop_syntax_cons (name : String) (inv : Inventory) (v : PyVal)
    (vs : List PyVal) (e : PyOp) (es : List PyOp)
    (hwf : wellFormedPred v e) :
    fbdLoopTop name inv (v :: vs) (some (e :: es)) = .error .syntaxError := by
  obtain ⟨ex, hex, hs, -⟩ := filterStep_error name inv v e
  have := fbdLoop_cons_error name inv v vs e es ex hex
  rw [hs hwf] at this
  exact this

/-- A loop failure is the whole filter_by_dimension call's failure. -/
theorem filter_by_dimension_error (dirTreeTruthy : Bool) (inv : Inventory)
    (values : List PyVal) (exprs : Option (List PyOp)) (name : String)
    (inPlace : Bool) (ex : PyExc)
    (h : fbdLoopTop name inv values exprs = .error ex) :
    filter_by_dimension dirTreeTruthy inv values exprs name inPlace =
      .error ex := by
  unfold filter_by_dimension
  rw [h]
  rfl

/-- A loop failure is the whole split_by_dimension call's failure. -/
theorem split_by_dimension_error (dirTreeTruthy : Bool) (inv : Inventory)
    (values : List PyVal) (exprs : Option (List PyOp)) (name : String)
    (ex : PyExc)
    (h : fbdLoopTop name inv values exprs = .error ex) :
    split_by_dimension dirTreeTruthy inv values exprs name = .error ex := by
  unfold split_by_dimension
  rw [h]
  rfl

/-- C1: the claim says split_by_dimension with N well-formed predicates over a
present dimension returns N data cubes, one per predicate in input order.  In
the code, the loop body `inventory = eval(filter_cmd)` evaluates an
unformatted template and raises SyntaxError (and `filtered_inventories`, the
list the split branch wraps, is never appended to), so already one exact
equality predicate on the `pol` dimension of a two-row inventory makes the
call raise instead of returning a one-cube list. -/
theorem C1_split_raises_instead_of_splitting :
    split_by_dimension true invPol [PyVal.scalar (.str "VV")]
      (some [PyOp.scalar .eq]) "pol" = .error .syntaxError := by rfl

/-- C2: the claim says filter_by_dimension with one all-matching predicate
returns a cube with the inventory unchanged in content and order.  The code
raises SyntaxError from `eval` of the unformatted template on the very first
pass; here the predicate is the closed range from the minimum to the maximum
timestamp with `(>=, <=)`, which holds on every row of the four-row
inventory. -/
theorem C2_allmatching_filter_raises :
    filter_by_dimension true invTime
      [PyVal.seq [.date ⟨2016, 1, 1⟩, .date ⟨2017, 3, 1⟩]]
      (some [PyOp.seq [.ge, .le]]) "time" false = .error .syntaxError := by rfl

/-- C4: the claim says a yearly split of the 4-file inventory dated
2016-01-01, 2016-01-15, 2016-02-10, 2017-03-01 yields two cubes with 3 and 1
files.  get_yearly_dcs builds the per-year min/max range predicates and
delegates to split_by_dimension, whose eval of the unformatted template
raises SyntaxError, so the call raises instead of returning two cubes. -/
theorem C4_yearly_split_raises :
    get_yearly_dcs true invTime "time" none = .error .syntaxError := by rfl

/-- C5: a predicate with mismatched value/expression element counts (1
against 2, or longer than 2) makes the whole filter call — filter or split
variant — fail with an error, and well-formed predicates (both parts length 1
or both length 2) never produce the length-mismatch error of line 627. -/
theorem C5_predicate_shape (dirTreeTruthy : Bool) (inv : Inventory)
    (values : List PyVal) (es : List PyOp) (name : String) (inPlace : Bool)
    (hlen : values.length = es.length) :
    ((∃ p ∈ values.zip es, claimMismatched p.1 p.2) →
      (∃ ex, filter_by_dimension dirTreeTruthy inv values (some es) name
          inPlace = .error ex) ∧
      (∃ ex, split_by_dimension dirTreeTruthy inv values (some es) name
          = .error ex)) ∧
    ((∀ p ∈ values.zip es, wellFormedPred p.1 p.2) →
      (∀ a b, filter_by_dimension dirTreeTruthy inv values (some es) name
          inPlace ≠ .error (.lengthMismatch a b)) ∧
      (∀ a b, split_by_dimension dirTreeTruthy inv values (some es) name
          ≠ .error (.lengthMismatch a b))) := by
  constructor
  · rintro ⟨p, hp, -⟩
    cases values with
    | nil => simp at hp
    | cons v vs =>
        obtain ⟨ex, hex⟩ := fbdLoopTop_error_cons name inv v vs (some es)
        exact ⟨⟨ex, filter_by_dimension_error dirTreeTruthy inv _ _ name
            inPlace ex hex⟩,
          ⟨ex, split_by_dimension_error dirTreeTruthy inv _ _ name ex hex⟩⟩
  · intro hwf
    cases values with
    | nil =>
        constructor
        · intro a b hc
          have h0 : filter_by_dimension dirTreeTruthy inv [] (some es) name
              inPlace = .error .valueError := rfl
          rw [h0] at hc
          simp at hc
        · intro a b hc
          have h0 : split_by_dimension dirTreeTruthy inv [] (some es) name
              = .ok [] := rfl
          rw [h0] at hc
          simp at hc
    | cons v vs =>
        cases es with
        | nil => simp at hlen
        | cons e es2 =>
            have hwf1 : wellFormedPred v e := hwf (v, e) (by simp)
            have hl := fbdLoopTop_syntax_cons name inv v vs e es2 hwf1
            constructor
            · intro a b hc
              rw [filter_by_dimension_error dirTreeTruthy inv _ _ name inPlace
                _ hl] at hc
              simp at hc
            · intro a b hc
              rw [split_by_dimension_error dirTreeTruthy inv _ _ name _ hl]
                at hc
              simp at hc

/-- Witness for C5 at a concrete input: one predicate with a scalar value and
a two-operator expression (lengths 1 and 2) makes both filter variants
fail. -/
theorem C5_predicate_shape_witness :
    (∃ ex, filter_by_dimension true invPol [PyVal.scalar (.str "VV")]
      (some [PyOp.seq [.ge, .le]]) "pol" false = .error ex) ∧
    (∃ ex, split_by_dimension true invPol [PyVal.scalar (.str "VV")]
      (some [PyOp.seq [.ge, .le]]) "pol" = .error ex) :=
  (C5_predicate_shape true invPol [PyVal.scalar (.str "VV")]
    [PyOp.seq [.ge, .le]] "pol" false rfl).1
    ⟨(PyVal.scalar (.str "VV"), PyOp.seq [.ge, .le]), by decide, by decide⟩

/-- C6: the claim says merge/merge_datacubes returns a cube with duplicate
rows removed and exactly the common dimensions.  The return statement of
merge_datacubes accesses the class-private `__assign_inventory` from module
level, where the name is not mangled, so after the pandas merge fold (which
itself neither deduplicates rows nor drops non-shared columns) every call
raises AttributeError; here already merging a two-row cube with itself
through the merge method raises instead of producing a cube. -/
theorem C6_merge_raises_attribute_error :
    dc_merge invPol invPol none = .error .attributeError := by rfl

/-- C7: the claim says match_dimension filters every input cube by the
combined first-occurrence-ordered value set and returns one cube per input.
The value union is computed, but the filter_by_dimension call for the first
cube evaluates the unformatted template and raises SyntaxError, so
match_dimension always raises; here on two one-dimension cubes sharing the
`time` column. -/
theorem C7_match_dimension_raises :
    match_dimension true [invTime, invTimeB] "time" false
      = .error .syntaxError := by rfl

/-! ### Dict lemmas for the inventory construction -/

/-- Appending a cell never changes a pair's key. -/
theorem appendCell_fst (k : String) (v : Val) (p : String × Col) :
    (appendCell k v p).1 = p.1 := by
  unfold appendCell
  by_cases h : p.1 = k <;> simp [h]

/-- Nullifying never changes a pair's key. -/
theorem nullifyCell_fst (fp : String) (p : String × Col) :
    (nullifyCell fp p).1 = p.1 := by
  unfold nullifyCell
  by_cases h : p.1 = "filepath" <;> simp [h]

/-- dictAppend preserves the key list. -/
theorem dictKeys_dictAppend (d : InvDict) (k : String) (v : Val) :
    dictKeys (dictAppend d k v) = dictKeys d := by
  unfold dictKeys dictAppend
  rw [List.map_map]
  exact List.map_congr_left (fun p _ => appendCell_fst k v p)

/-- p2Step preserves the key list. -/
theorem dictKeys_p2Step (d : InvDict) (u : String) :
    dictKeys (p2Step d u) = dictKeys d := by
  unfold dictKeys p2Step
  rw [List.map_map]
  exact List.map_congr_left (fun p _ => nullifyCell_fst u p)

/-- phase2 preserves the key list. -/
theorem dictKeys_phase2 (d : InvDict) (untrans : List String) :
    dictKeys (phase2 d untrans) = dictKeys d := by
  induction untrans generalizing d with
  | nil => rfl
  | cons u us ih =>
      have h : phase2 d (u :: us) = phase2 (p2Step d u) us := rfl
      rw [h, ih, dictKeys_p2Step]

/-- addField either keeps the key list or appends one fresh key. -/
theorem dictKeys_addField (dims0 : Option (List String)) (d : InvDict)
    (kv : String × Val) :
    dictKeys (addField dims0 d kv) = dictKeys d ∨
    (dictKeys (addField dims0 d kv) = dictKeys d ++ [kv.1] ∧
      (dictKeys d).contains kv.1 = false) := by
  unfold addField
  by_cases hk : keepKey dims0 kv.1
  · by_cases hc : (dictKeys d).contains kv.1
    · left
      simp only [hk, hc, if_true]
      exact dictKeys_dictAppend d kv.1 kv.2
    · right
      simp only [hk, if_true, hc, Bool.false_eq_true, if_false]
      refine ⟨?_, trivial⟩
      rw [dictKeys_dictAppend]
      unfold dictKeys
      simp
  · left
    simp [hk]

/-- addField preserves key uniqueness. -/
theorem nodup_addField (dims0 : Option (List String)) (d : InvDict)
    (kv : String × Val) (h : (dictKeys d).Nodup) :
    (dictKeys (addField dims0 d kv)).Nodup := by
  rcases dictKeys_addField dims0 d kv with heq | ⟨heq, hc⟩
  · rw [heq]; exact h
  · rw [heq]
    have hnm : kv.1 ∉ dictKeys d := by simpa using hc
    simp [List.nodup_append, h, hnm]

/-- The filepath cell column survives dictAppend. -/
theorem mem_filepath_dictAppend (d : InvDict) (k : String) (v : Val)
    (l : List Val) (h : ("filepath", Col.cells l) ∈ d) :
    ∃ l2, ("filepath", Col.cells l2) ∈ dictAppend d k v := by
  by_cases hk : ("filepath" : String) = k
  · refine ⟨l ++ [v], ?_⟩
    have h2 := List.mem_map_of_mem (appendCell k v) h
    have he : appendCell k v ("filepath", Col.cells l)
        = ("filepath", Col.cells (l ++ [v])) := by
      simp [appendCell, hk]
    rwa [he] at h2
  · refine ⟨l, ?_⟩
    have h2 := List.mem_map_of_mem (appendCell k v) h
    have he : appendCell k v ("filepath", Col.cells l)
        = ("filepath", Col.cells l) := by
      simp [appendCell, hk]
    rwa [he] at h2

/-- The filepath cell column survives addField. -/
theorem mem_filepath_addField (dims0 : Option (List String)) (d : InvDict)
    (kv : String × Val) (l : List Val)
    (h : ("filepath", Col.cells l) ∈ d) :
    ∃ l2, ("filepath", Col.cells l2) ∈ addField dims0 d kv := by
  unfold addField
  by_cases hk : keepKey dims0 kv.1
  · by_cases hc : (dictKeys d).contains kv.1
    · simp only [hk, hc, if_true]
      exact mem_filepath_dictAppend d kv.1 kv.2 l h
    · simp only [hk, if_true, hc, Bool.false_eq_true, if_false]
      exact mem_filepath_dictAppend _ kv.1 kv.2 l (List.mem_append_left _ h)
  · simp only [hk, Bool.false_eq_true, if_false]
    exact ⟨l, h⟩

/-- The invariant survives dictAppend. -/
theorem dictInv_dictAppend (d : InvDict) (k : String) (v : Val)
    (h : DictInv d) : DictInv (dictAppend d k v) := by
  obtain ⟨hn, l, hl⟩ := h
  exact ⟨by rw [dictKeys_dictAppend]; exact hn,
    mem_filepath_dictAppend d k v l hl⟩

/-- The invariant survives addField. -/
theorem dictInv_addField (dims0 : Option (List String)) (d : InvDict)
    (kv : String × Val) (h : DictInv d) : DictInv (addField dims0 d kv) := by
  obtain ⟨hn, l, hl⟩ := h
  exact ⟨nodup_addField dims0 d kv hn, mem_filepath_addField dims0 d kv l hl⟩

/-- The invariant survives a whole field fold. -/
theorem dictInv_foldl_addField (dims0 : Option (List String))
    (fields : List (String × Val)) (d : InvDict) (h : DictInv d) :
    DictInv (fields.foldl (addField dims0) d) := by
  induction fields generalizing d with
  | nil => exact h
  | cons kv kvs ih => exact ih _ (dictInv_addField dims0 d kv h)

/-- The invariant survives one file of the translation loop. -/
theorem dictInv_p1Step (f : Translator) (dims0 : Option (List String))
    (st : P1State) (fp : String) (h : DictInv st.dict) :
    DictInv (p1Step f dims0 st fp).dict := by
  unfold p1Step
  cases htr : f (basename fp) with
  | error e => exact h
  | ok fields =>
      exact dictInv_foldl_addField dims0 fields _
        (dictInv_dictAppend st.dict "filepath" (.str fp) h)

/-- The invariant holds after the whole translation loop. -/
theorem dictInv_phase1 (f : Option Translator) (dims0 : Option (List String))
    (fps : List String) : DictInv (phase1 f dims0 fps).dict := by
  have hinit : DictInv initDict := ⟨by simp [initDict, dictKeys], [],
    by simp [initDict]⟩
  cases f with
  | none => exact hinit
  | some f0 =>
      unfold phase1
      have hgen : ∀ (l : List String) (st : P1State), DictInv st.dict →
          DictInv (l.foldl (p1Step f0 dims0) st).dict := by
        intro l
        induction l with
        | nil => exact fun st h => h
        | cons x xs ih =>
            exact fun st h => ih _ (dictInv_p1Step f0 dims0 st x h)
      exact hgen fps ⟨initDict, []⟩ hinit

/-- The untranslatable list only grows along the translation loop. -/
theorem untrans_mono (f : Translator) (dims0 : Option (List String))
    (fps : List String) (st : P1State) (x : String)
    (h : x ∈ st.untrans) : x ∈ (fps.foldl (p1Step f dims0) st).untrans := by
  induction fps generalizing st with
  | nil => exact h
  | cons fp rest ih =>
      refine ih (p1Step f dims0 st fp) ?_
      unfold p1Step
      cases f (basename fp) with
      | error e => exact List.mem_append_left _ h
      | ok fields => exact h

/-- A file whose translation fails lands in the untranslatable list. -/
theorem untrans_mem (f : Translator) (dims0 : Option (List String))
    (fps : List String) (st : P1State) (fp : String) (hmem : fp ∈ fps)
    (herr : f (basename fp) = .error ()) :
    fp ∈ (fps.foldl (p1Step f dims0) st).untrans := by
  induction fps generalizing st with
  | nil => cases hmem
  | cons x xs ih =>
      rcases List.mem_cons.mp hmem with heq | htail
      · subst heq
        refine untrans_mono f dims0 xs (p1Step f dims0 st fp) fp ?_
        unfold p1Step
        rw [herr]
        exact List.mem_append_right _ (by simp)
      · exact ih (p1Step f dims0 st x) htail

/-- The filepath column after the untranslatable loop carries the previous
cells followed by the untranslatable filepaths in order. -/
theorem mem_filepath_phase2 (d : InvDict) (untrans : List String)
    (l : List Val) (h : ("filepath", Col.cells l) ∈ d) :
    ("filepath", Col.cells (l ++ untrans.map Val.str)) ∈ phase2 d untrans := by
  induction untrans generalizing d l with
  | nil =>
      rw [List.map_nil, List.append_nil]
      exact h
  | cons u us ih =>
      have hstep : ("filepath", Col.cells (l ++ [Val.str u])) ∈ p2Step d u := by
        have h2 := List.mem_map_of_mem (nullifyCell u) h
        have he : nullifyCell u ("filepath", Col.cells l)
            = ("filepath", Col.cells (l ++ [Val.str u])) := by
          simp [nullifyCell]
        rwa [he] at h2
      have h3 := ih (p2Step d u) (l ++ [Val.str u]) hstep
      have h4 : phase2 d (u :: us) = phase2 (p2Step d u) us := rfl
      rw [h4]
      simpa [List.append_assoc] using h3

/-- One untranslatable-loop step leaves every non-filepath column
broadcast-None. -/
theorem nonfp_p2Step (d : InvDict) (u : String) :
    ∀ p ∈ p2Step d u, p.1 ≠ "filepath" → p.2 = Col.broadcastNone := by
  intro p hp hne
  obtain ⟨q, hq, rfl⟩ := List.mem_map.mp hp
  have hq1 : q.1 ≠ "filepath" := by
    rwa [nullifyCell_fst] at hne
  simp [nullifyCell, hq1]

/-- After a non-empty untranslatable loop, every non-filepath column is
broadcast-None. -/
theorem nonfp_phase2 (d : InvDict) (untrans : List String)
    (hne : untrans ≠ []) :
    ∀ p ∈ phase2 d untrans, p.1 ≠ "filepath" → p.2 = Col.broadcastNone := by
  rcases List.eq_nil_or_concat untrans with rfl | ⟨us, u, rfl⟩
  · exact absurd rfl hne
  · have h : phase2 d (us.concat u) = p2Step (phase2 d us) u := by
      unfold phase2
      rw [List.concat_eq_append, List.foldl_append]
      rfl
    rw [h]
    exact nonfp_p2Step _ _

/-- The GeoDataFrame constructor on a dict whose only cell-list column is the
filepath one: it succeeds, the columns are the keys, there is one row per
filepath cell, and every row holds its filepath cell and nulls elsewhere. -/
theorem buildFrame_single (d : InvDict) (L : List Val)
    (hnodup : (dictKeys d).Nodup)
    (hmem : ("filepath", Col.cells L) ∈ d)
    (hothers : ∀ p ∈ d, p.1 ≠ "filepath" → p.2 = Col.broadcastNone) :
    ∃ inv, buildFrame d = .ok inv ∧ inv.columns = dictKeys d ∧
      inv.rows.length = L.length ∧
      ∀ i, i < L.length →
        inv.entry i "filepath" = some (L.getD i Val.null) ∧
        ∀ c ∈ inv.columns, c ≠ "filepath" → inv.entry i c = some Val.null := by
  have hnodup2 : (d.map Prod.fst).Nodup := hnodup
  have huniq : ∀ p ∈ d, p.1 = "filepath" → p = ("filepath", Col.cells L) := by
    intro p hp h1
    exact List.inj_on_of_nodup_map hnodup2 hp hmem (by rw [h1])
  have hmemlen : L.length ∈ d.filterMap (fun p =>
      match p.2 with
      | Col.cells vs => some vs.length
      | Col.broadcastNone => none) :=
    List.mem_filterMap.mpr ⟨("filepath", Col.cells L), hmem, rfl⟩
  have halllen : ∀ x ∈ d.filterMap (fun p =>
      match p.2 with
      | Col.cells vs => some vs.length
      | Col.broadcastNone => none), x = L.length := by
    intro x hx
    obtain ⟨p, hp, hfx⟩ := List.mem_filterMap.mp hx
    by_cases h1 : p.1 = "filepath"
    · rw [huniq p hp h1] at hfx
      exact (Option.some_inj.mp hfx).symm
    · rw [hothers p hp h1] at hfx
      cases hfx
  cases hl : d.filterMap (fun p =>
      match p.2 with
      | Col.cells vs => some vs.length
      | Col.broadcastNone => none) with
  | nil =>
      rw [hl] at hmemlen
      cases hmemlen
  | cons n rest =>
      have hn : n = L.length := halllen n (by rw [hl]; exact List.mem_cons_self n rest)
      have hall : rest.all (· = n) = true := by
        rw [List.all_eq_true]
        intro x hx
        have hx2 : x = L.length :=
          halllen x (by rw [hl]; exact List.mem_cons_of_mem n hx)
        simp [hx2, hn]
      refine ⟨{ columns := dictKeys d,
                rows := (List.range n).map (fun i => d.map (fun p =>
                  match p.2 with
                  | Col.cells vs => vs.getD i Val.null
                  | Col.broadcastNone => Val.null)) }, ?_, rfl, ?_, ?_⟩
      · unfold buildFrame
        rw [hl]
        simp [hall]
      · simp [hn]
      · intro i hi
        have hin : i < n := by rw [hn]; exact hi
        have hrow : ((List.range n).map (fun i => d.map (fun p =>
            match p.2 with
            | Col.cells vs => vs.getD i Val.null
            | Col.broadcastNone => Val.null)))[i]? = some (d.map (fun p =>
            match p.2 with
            | Col.cells vs => vs.getD i Val.null
            | Col.broadcastNone => Val.null)) := by
          rw [List.getElem?_map, List.getElem?_range hin]
          rfl
        have hdlen : (dictKeys d).length = d.length := List.length_map d Prod.fst
        constructor
        · have hfpmem : "filepath" ∈ dictKeys d :=
            List.mem_map_of_mem Prod.fst hmem
          have hjlt : (dictKeys d).indexOf "filepath" < (dictKeys d).length :=
            List.indexOf_lt_length.mpr hfpmem
          have hjd : (dictKeys d).indexOf "filepath" < d.length := by
            rw [← hdlen]; exact hjlt
          have hkey : (d[(dictKeys d).indexOf "filepath"]).1 = "filepath" := by
            have h1 : (dictKeys d)[(dictKeys d).indexOf "filepath"]
                = "filepath" := List.getElem_indexOf hjlt
            have h2 : (dictKeys d)[(dictKeys d).indexOf "filepath"]
                = (d[(dictKeys d).indexOf "filepath"]).1 :=
              List.getElem_map Prod.fst
            rw [← h2, h1]
          have hpair : d[(dictKeys d).indexOf "filepath"]
              = ("filepath", Col.cells L) :=
            huniq _ (List.getElem_mem hjd) hkey
          show (((List.range n).map _)[i]?).bind _ = some (L.getD i Val.null)
          rw [hrow]
          show (d.map _)[(dictKeys d).indexOf "filepath"]?
            = some (L.getD i Val.null)
          rw [List.getElem?_map, List.getElem?_eq_getElem hjd,
            Option.map_some', hpair]
        · intro c hc hcne
          have hjlt : (dictKeys d).indexOf c < (dictKeys d).length :=
            List.indexOf_lt_length.mpr hc
          have hjd : (dictKeys d).indexOf c < d.length := by
            rw [← hdlen]; exact hjlt
          have hkey : (d[(dictKeys d).indexOf c]).1 = c := by
            have h1 : (dictKeys d)[(dictKeys d).indexOf c] = c :=
              List.getElem_indexOf hjlt
            have h2 : (dictKeys d)[(dictKeys d).indexOf c]
                = (d[(dictKeys d).indexOf c]).1 :=
              List.getElem_map Prod.fst
            rw [← h2, h1]
          have hbc : (d[(dictKeys d).indexOf c]).2 = Col.broadcastNone :=
            hothers _ (List.getElem_mem hjd) (by rw [hkey]; exact hcne)
          show (((List.range n).map _)[i]?).bind _ = some Val.null
          rw [hrow]
          show (d.map _)[(dictKeys d).indexOf c]? = some Val.null
          rw [List.getElem?_map, List.getElem?_eq_getElem hjd,
            Option.map_some', hbc]

/-- When the frame builds, __inventory_from_filepaths returns it together
with the dict keys minus `filepath` as dimensions. -/
theorem inventory_from_filepaths_ok_of (f : Option Translator)
    (dims0 : Option (List String)) (fps : List String) (inv : Inventory)
    (hne : fps ≠ [])
    (hbf : buildFrame (phase2 (phase1 f dims0 fps).dict
        (phase1 f dims0 fps).untrans) = .ok inv) :
    inventory_from_filepaths f dims0 fps = .ok (some
      ((dictKeys (phase2 (phase1 f dims0 fps).dict
          (phase1 f dims0 fps).untrans)).erase "filepath", inv)) := by
  unfold inventory_from_filepaths
  rw [if_neg (fun h => hne (List.isEmpty_iff.mp h)), hbf]

/-- C3: a file identifier whose translation raises is retained as a row of
the constructed inventory with a null in every dimension column; and the
spec's scenario — an always-failing translator over 5 identifiers with the
requested dimension list containing `time` — yields a 5-row inventory with an
empty dimensions list. -/
theorem C3_untranslatable_rows_retained :
    (∀ (f : Translator) (dims0 : Option (List String)) (fps : List String)
        (fp : String), fp ∈ fps → f (basename fp) = .error () →
        ∃ dims inv, inventory_from_filepaths (some f) dims0 fps
            = .ok (some (dims, inv)) ∧
          ∃ i, i < inv.rows.length ∧ rowIsUntranslatable inv i fp) ∧
    inventory_from_filepaths (some (fun _ => .error ())) (some ["time"])
        ["f1", "f2", "f3", "f4", "f5"]
      = .ok (some (([] : List String), c3Frame)) := by
  constructor
  · intro f dims0 fps fp hmem herr
    have hne : fps ≠ [] := List.ne_nil_of_mem hmem
    obtain ⟨hnodup, l, hl⟩ := dictInv_phase1 (some f) dims0 fps
    have hu : fp ∈ (phase1 (some f) dims0 fps).untrans :=
      untrans_mem f dims0 fps ⟨initDict, []⟩ fp hmem herr
    have hnut : (phase1 (some f) dims0 fps).untrans ≠ [] :=
      List.ne_nil_of_mem hu
    have hmem2 := mem_filepath_phase2 (phase1 (some f) dims0 fps).dict
      (phase1 (some f) dims0 fps).untrans l hl
    have hother2 := nonfp_phase2 (phase1 (some f) dims0 fps).dict
      (phase1 (some f) dims0 fps).untrans hnut
    have hnodup2 : (dictKeys (phase2 (phase1 (some f) dims0 fps).dict
        (phase1 (some f) dims0 fps).untrans)).Nodup := by
      rw [dictKeys_phase2]
      exact hnodup
    obtain ⟨inv, hbf, hcols, hlen, hent⟩ :=
      buildFrame_single _ _ hnodup2 hmem2 hother2
    have hres := inventory_from_filepaths_ok_of (some f) dims0 fps inv hne hbf
    refine ⟨_, inv, hres, ?_⟩
    have hfpin : Val.str fp ∈ l ++ (phase1 (some f) dims0 fps).untrans.map
        Val.str :=
      List.mem_append_right l (List.mem_map_of_mem Val.str hu)
    obtain ⟨i, hi, hgl⟩ := List.mem_iff_getElem.mp hfpin
    refine ⟨i, by rw [hlen]; exact hi, ?_, ?_⟩
    · rw [(hent i hi).1, List.getD_eq_getElem _ _ hi, hgl]
    · exact (hent i hi).2
  · rfl

/-- Witness for C3 at a concrete input: the identifier `f2` of a three-file
run under an always-failing translator is kept as a null-dimension row. -/
theorem C3_untranslatable_rows_retained_witness :
    ∃ dims inv, inventory_from_filepaths
        (some (fun _ => .error ())) none ["f1", "f2", "f3"]
        = .ok (some (dims, inv)) ∧
      ∃ i, i < inv.rows.length ∧ rowIsUntranslatable inv i "f2" :=
  C3_untranslatable_rows_retained.1
    (fun _ => .error ()) none ["f1", "f2", "f3"] "f2" (by simp) rfl

/-- The built frame's columns are always the dict keys. -/
theorem buildFrame_columns (d : InvDict) (inv : Inventory)
    (h : buildFrame d = .ok inv) : inv.columns = dictKeys d := by
  unfold buildFrame at h
  split at h
  · injection h with h2
    rw [← h2]
  · split at h
    · injection h with h2
      rw [← h2]
    · cases h

/-- Destructor for a successful run of __inventory_from_filepaths: the
columns are the dict keys and the dimensions are those keys minus
filepath. -/
theorem inventory_from_filepaths_ok (f : Option Translator)
    (dims0 : Option (List String)) (fps : List String) (dims : List String)
    (inv : Inventory)
    (h : inventory_from_filepaths f dims0 fps = .ok (some (dims, inv))) :
    inv.columns = dictKeys (phase2 (phase1 f dims0 fps).dict
        (phase1 f dims0 fps).untrans) ∧
    dims = (dictKeys (phase2 (phase1 f dims0 fps).dict
        (phase1 f dims0 fps).untrans)).erase "filepath" := by
  unfold inventory_from_filepaths at h
  by_cases he : fps.isEmpty
  · rw [if_pos he] at h
    simp at h
  · rw [if_neg he] at h
    cases hbf : buildFrame (phase2 (phase1 f dims0 fps).dict
        (phase1 f dims0 fps).untrans) with
    | error e =>
        rw [hbf] at h
        simp at h
    | ok inv2 =>
        rw [hbf] at h
        simp only [Except.ok.injEq, Option.some.injEq, Prod.mk.injEq] at h
        obtain ⟨hdims, hinv⟩ := h
        subst hinv
        exact ⟨buildFrame_columns _ _ hbf, hdims.symm⟩

/-- C9 (amended): the dimensions/columns consistency holds right after
inventory construction from filepaths — the dimensions list is exactly the
inventory columns minus filepath — but it is not preserved by the operation
set: add_dimension with in_place=True replaces the inventory only, leaving
the dimensions list as it was. -/
theorem C9_dims_consistency_amended :
    (∀ (f : Option Translator) (dims0 : Option (List String))
        (fps : List String) (dims : List String) (inv : Inventory),
        inventory_from_filepaths f dims0 fps = .ok (some (dims, inv)) →
        ∀ c, c ∈ dims ↔ (c ∈ inv.columns ∧ c ≠ "filepath")) ∧
    (∀ (dc : DCube) (name : String) (values : List Val) (inv2 : Inventory)
        (dirTreeTruthy : Bool),
        pdAssign dc.inventory name values = .ok inv2 →
        add_dimension dirTreeTruthy dc name values true
          = .ok { dimensions := dc.dimensions, inventory := inv2 }) := by
  constructor
  · intro f dims0 fps dims inv h c
    obtain ⟨hcols, hdims⟩ := inventory_from_filepaths_ok f dims0 fps dims inv h
    have hnodup : (dictKeys (phase2 (phase1 f dims0 fps).dict
        (phase1 f dims0 fps).untrans)).Nodup := by
      rw [dictKeys_phase2]
      exact (dictInv_phase1 f dims0 fps).1
    rw [hdims, hcols, List.Nodup.mem_erase_iff hnodup]
    exact and_comm
  · intro dc name values inv2 dirTreeTruthy h
    unfold add_dimension
    rw [h]
    rfl

/-- Counterexample to C9 as stated: a cube constructed from one translated
file satisfies the invariant, but after add_dimension("cloud", [7],
in_place=True) the inventory has a `cloud` column the dimensions list lacks,
so the consistency check fails. -/
theorem C9_counterexample_add_dimension :
    inventory_from_filepaths (some okTranslator) none ["a.tif"]
        = .ok (some (c9Base.dimensions, c9Base.inventory)) ∧
    add_dimension true c9Base "cloud" [.int 7] true = .ok c9After ∧
    dimsConsistentB c9After = false := ⟨rfl, rfl, rfl⟩

/-- Witness for C9 (amended) at a concrete input. -/
theorem C9_dims_consistency_amended_witness :
    ("time" ∈ c9Base.dimensions ↔
      ("time" ∈ c9Base.inventory.columns ∧ "time" ≠ "filepath")) ∧
    add_dimension true c9Base "cloud" [.int 7] true
      = .ok { dimensions := c9Base.dimensions,
              inventory := c9After.inventory } :=
  ⟨C9_dims_consistency_amended.1 (some okTranslator) none ["a.tif"]
      c9Base.dimensions c9Base.inventory rfl "time",
   C9_dims_consistency_amended.2 c9Base "cloud" [.int 7] c9After.inventory
      true rfl⟩

/-! ### Store lemmas -/

/-- Reading the cell just written. -/
theorem lookup_write_self (σ : Store) (r : Nat) (o : HObj) :
    (σ.write r o).lookup r = some o := by
  unfold Store.lookup Store.write
  rw [List.find?_cons_of_pos _ (by simp)]
  rfl

/-- Writing one cell leaves every other cell unchanged. -/
theorem lookup_write_ne (σ : Store) (r r2 : Nat) (o : HObj) (h : r2 ≠ r) :
    (σ.write r o).lookup r2 = σ.lookup r2 := by
  unfold Store.lookup Store.write
  rw [List.find?_cons_of_neg _ (by simp [Ne.symm h])]

/-- Reading the freshly allocated cell. -/
theorem lookup_alloc_self (σ : Store) (o : HObj) :
    (σ.alloc o).2.lookup σ.next = some o := by
  unfold Store.lookup Store.alloc
  rw [List.find?_cons_of_pos _ (by simp)]
  rfl

/-- Allocation leaves every existing cell unchanged. -/
theorem lookup_alloc_ne (σ : Store) (o : HObj) (r : Nat) (h : r ≠ σ.next) :
    (σ.alloc o).2.lookup r = σ.lookup r := by
  unfold Store.lookup Store.alloc
  rw [List.find?_cons_of_neg _ (by simp [Ne.symm h])]

/-- Store extension is reflexive. -/
theorem storeLe_refl (σ : Store) : StoreLe σ σ :=
  ⟨le_refl _, fun _ _ => rfl⟩

/-- Store extension composes. -/
theorem storeLe_trans {a b c : Store} (h1 : StoreLe a b) (h2 : StoreLe b c) :
    StoreLe a c :=
  ⟨le_trans h1.1 h2.1, fun r hr => by
    rw [h2.2 r (lt_of_lt_of_le hr h1.1), h1.2 r hr]⟩

/-- Allocation extends the store. -/
theorem storeLe_alloc (σ : Store) (o : HObj) : StoreLe σ (σ.alloc o).2 :=
  ⟨Nat.le_succ _, fun r hr => lookup_alloc_ne σ o r (Nat.ne_of_lt hr)⟩

/-- Deep-copying None is a no-op. -/
theorem deepcopyObj_none (σ : Store) : deepcopyObj σ none = (σ, none) := rfl

/-- Deep-copying a non-tree attribute is one allocation of an equal value. -/
theorem deepcopyObj_copy (σ : Store) (r : Nat) (o : HObj)
    (h : σ.lookup r = some o) (hnt : ∀ rr, o ≠ .treeO rr) :
    deepcopyObj σ (some r) = ((σ.alloc o).2, some σ.next) := by
  simp only [deepcopyObj]
  rw [h]
  cases o with
  | treeO rr => exact absurd rfl (hnt rr)
  | strsO l => rfl
  | dimsO l => rfl
  | invO t => rfl
  | gridO g => rfl

/-- Deep-copying one attribute extends the store. -/
theorem deepcopyObj_le (σ : Store) (x : Option Nat) :
    StoreLe σ (deepcopyObj σ x).1 := by
  cases x with
  | none => exact storeLe_refl σ
  | some r =>
      cases h : σ.lookup r with
      | none =>
          have he : deepcopyObj σ (some r) = (σ, none) := by
            simp only [deepcopyObj]
            rw [h]
          rw [he]
          exact storeLe_refl σ
      | some o =>
          cases o with
          | treeO rr =>
              have he : deepcopyObj σ (some r) =
                  (((σ.alloc ((σ.lookup rr).getD (.strsO []))).2.alloc
                      (.treeO σ.next)).2, some (σ.next + 1)) := by
                simp only [deepcopyObj]
                rw [h]
              rw [he]
              exact storeLe_trans (storeLe_alloc σ _) (storeLe_alloc _ _)
          | strsO l =>
              rw [deepcopyObj_copy σ r _ h (fun rr => by simp)]
              exact storeLe_alloc σ _
          | dimsO l =>
              rw [deepcopyObj_copy σ r _ h (fun rr => by simp)]
              exact storeLe_alloc σ _
          | invO t =>
              rw [deepcopyObj_copy σ r _ h (fun rr => by simp)]
              exact storeLe_alloc σ _
          | gridO g =>
              rw [deepcopyObj_copy σ r _ h (fun rr => by simp)]
              exact storeLe_alloc σ _

/-- Bind of a successful Except step. -/
theorem except_bind_ok {α β : Type} (a : α) (f : α → Except PyExc β) :
    (Except.ok a : Except PyExc α) >>= f = f a := rfl

/-- Pure in the Except monad. -/
theorem except_pure_eq {α : Type} (a : α) :
    (pure a : Except PyExc α) = Except.ok a := rfl

/-- The None attribute is falsy. -/
theorem refTruthy_none (σ : Store) : refTruthy σ none = .ok false := rfl

/-- A truthy string-list attribute. -/
theorem refTruthy_strs (σ : Store) (r : Nat) (l : List String)
    (h : σ.lookup r = some (.strsO l)) (hl : l ≠ []) :
    refTruthy σ (some r) = .ok true := by
  simp only [refTruthy]
  rw [h]
  simp [hl]

/-- A truthy dimension-list attribute. -/
theorem refTruthy_dims (σ : Store) (r : Nat) (l : List String)
    (h : σ.lookup r = some (.dimsO l)) (hl : l ≠ []) :
    refTruthy σ (some r) = .ok true := by
  simp only [refTruthy]
  rw [h]
  simp [hl]

/-- A grid attribute is truthy. -/
theorem refTruthy_grid (σ : Store) (r : Nat) (g : Nat)
    (h : σ.lookup r = some (.gridO g)) :
    refTruthy σ (some r) = .ok true := by
  simp only [refTruthy]
  rw [h]

/-- A tree attribute is truthy. -/
theorem refTruthy_tree (σ : Store) (r : Nat) (rr : Nat)
    (h : σ.lookup r = some (.treeO rr)) :
    refTruthy σ (some r) = .ok true := by
  simp only [refTruthy]
  rw [h]

/-- The constructor when every given attribute is usable as passed: truthy
filepaths and dimensions, an inventory, and either a truthy grid or a
geometry column.  It wires the references and allocates nothing but the cube
identity. -/
theorem eoDataCubeInit_given (transFn : Translator) (geomOf : String → Val)
    (σ : Store) (fpsA gridA treeA tokA dimsA : Option Nat) (ri : Nat)
    (t : Inventory)
    (h1 : refTruthy σ fpsA = .ok true)
    (h2 : refTruthy σ dimsA = .ok true)
    (hli : σ.lookup ri = some (.invO t))
    (hgrid : refTruthy σ gridA = .ok true ∨
      (gridA = none ∧ t.columns.contains "geometry" = true)) :
    eoDataCubeInit transFn geomOf σ fpsA gridA treeA tokA dimsA (some ri) =
      .ok ({ mem := σ.mem, next := σ.next + 1 },
           { objId := σ.next, filepathsRef := fpsA, dimsRef := dimsA,
             invRef := some ri, gridRef := gridA, treeRef := treeA,
             translator := tokA }) := by
  rcases hgrid with hg | ⟨hg1, hg2⟩
  · simp [eoDataCubeInit, h1, h2, hg, except_bind_ok, except_pure_eq]
  · subst hg1
    simp [eoDataCubeInit, h1, h2, hli, hg2, refTruthy_none, except_bind_ok,
      except_pure_eq]
    intro hmem
    exact absurd (by simpa using hg2) hmem

/-- The from_inventory constructor path: no filepaths, dimensions or
translator argument, a truthy directory tree, an inventory.  The cube takes
the tree's file register, a freshly allocated dimensions object (the table's
columns minus filepath), the given inventory and grid, and the next cube
identity. -/
theorem eoDataCubeInit_fromInv (transFn : Translator) (geomOf : String → Val)
    (σ : Store) (gridA : Option Nat) (rt rr ri : Nat) (t : Inventory)
    (htree : σ.lookup rt = some (.treeO rr))
    (hli : σ.lookup ri = some (.invO t))
    (hrilt : ri < σ.next)
    (hgrid : (∃ rg g, gridA = some rg ∧ rg < σ.next ∧
        σ.lookup rg = some (.gridO g)) ∨
      (gridA = none ∧ t.columns.contains "geometry" = true)) :
    eoDataCubeInit transFn geomOf σ none gridA (some rt) none none (some ri) =
      .ok ({ mem := ((σ.alloc (.dimsO (t.columns.erase "filepath"))).2).mem,
             next := σ.next + 2 },
           { objId := σ.next + 1, filepathsRef := some rr,
             dimsRef := some σ.next, invRef := some ri, gridRef := gridA,
             treeRef := some rt, translator := none }) := by
  have htr : refTruthy σ (some rt) = .ok true := refTruthy_tree σ rt rr htree
  have hreg : registerOf σ (some rt) = some rr := by
    simp only [registerOf]
    rw [htree]
  rcases hgrid with ⟨rg, g, hg1, hglt, hgl⟩ | ⟨hg1, hg2⟩
  · subst hg1
    have hg5 : refTruthy ((σ.alloc (.dimsO (t.columns.erase "filepath"))).2)
        (some rg) = .ok true :=
      refTruthy_grid _ rg g
        (by rw [lookup_alloc_ne σ _ rg (Nat.ne_of_lt hglt)]; exact hgl)
    simp only [Store.alloc] at hg5
    simp [eoDataCubeInit, refTruthy_none, htr, hreg, hli, hg5,
      except_bind_ok, except_pure_eq, Store.alloc]
  · subst hg1
    have hilook : ((σ.alloc (.dimsO (t.columns.erase "filepath"))).2).lookup
        ri = some (.invO t) := by
      rw [lookup_alloc_ne σ _ ri (Nat.ne_of_lt hrilt)]
      exact hli
    simp only [Store.alloc] at hilook
    simp [eoDataCubeInit, refTruthy_none, htr, hreg, hli, hilook, hg2,
      except_bind_ok, except_pure_eq, Store.alloc]
    intro hmem
    exact absurd (by simpa using hg2) hmem

/-- The constructor when the passed dimensions list object is empty (the
reduced-capability cube of a translator that failed on every file): the
truthiness test `if dimensions:` at line 61 is falsy, so the dimensions are
re-derived from the inventory as a fresh object holding the table's columns
minus filepath (lines 63-66). -/
theorem eoDataCubeInit_emptyDims (transFn : Translator)
    (geomOf : String → Val) (σ : Store) (fpsA gridA treeA tokA : Option Nat)
    (rd ri : Nat) (t : Inventory)
    (h1 : refTruthy σ fpsA = .ok true)
    (h2 : σ.lookup rd = some (.dimsO []))
    (hli : σ.lookup ri = some (.invO t))
    (hrilt : ri < σ.next)
    (hgrid : (∃ rg g, gridA = some rg ∧ rg < σ.next ∧
        σ.lookup rg = some (.gridO g)) ∨
      (gridA = none ∧ t.columns.contains "geometry" = true)) :
    eoDataCubeInit transFn geomOf σ fpsA gridA treeA tokA (some rd)
        (some ri) =
      .ok ({ mem := ((σ.alloc (.dimsO (t.columns.erase "filepath"))).2).mem,
             next := σ.next + 2 },
           { objId := σ.next + 1, filepathsRef := fpsA,
             dimsRef := some σ.next, invRef := some ri, gridRef := gridA,
             treeRef := treeA, translator := tokA }) := by
  have htd : refTruthy σ (some rd) = .ok false := by
    simp only [refTruthy]
    rw [h2]
    rfl
  rcases hgrid with ⟨rg, g, hg1, hglt, hgl⟩ | ⟨hg1, hg2⟩
  · subst hg1
    have hg5 : refTruthy ((σ.alloc (.dimsO (t.columns.erase "filepath"))).2)
        (some rg) = .ok true :=
      refTruthy_grid _ rg g
        (by rw [lookup_alloc_ne σ _ rg (Nat.ne_of_lt hglt)]; exact hgl)
    simp only [Store.alloc] at hg5
    simp [eoDataCubeInit, h1, htd, hli, hg5, except_bind_ok, except_pure_eq,
      Store.alloc]
  · subst hg1
    have hilook : ((σ.alloc (.dimsO (t.columns.erase "filepath"))).2).lookup
        ri = some (.invO t) := by
      rw [lookup_alloc_ne σ _ ri (Nat.ne_of_lt hrilt)]
      exact hli
    simp only [Store.alloc] at hilook
    simp [eoDataCubeInit, h1, htd, refTruthy_none, hli, hilook, hg2,
      except_bind_ok, except_pure_eq, Store.alloc]
    intro hmem
    exact absurd (by simpa using hg2) hmem

/-- C10: eoDataCube.__assign_inventory with in_place=True returns the very
same cube object with only the inventory attribute repointed at the result
table and the store untouched; with in_place=False and a successful
from_inventory run it leaves the receiver's state unchanged and returns a
distinct new cube holding the result table, with the receiver's grid and
dir_tree. -/
theorem C10_assign_inventory_semantics (transFn : Translator)
    (geomOf : String → Val) (σ : Store) (dc : DCRef) (invNew rt rr : Nat)
    (t : Inventory)
    (hobj : dc.objId < σ.next)
    (htreeRef : dc.treeRef = some rt)
    (htree : σ.lookup rt = some (.treeO rr))
    (hinv : σ.lookup invNew = some (.invO t))
    (hinvlt : invNew < σ.next)
    (hgrid : (∃ rg g, dc.gridRef = some rg ∧ rg < σ.next ∧
        σ.lookup rg = some (.gridO g)) ∨
      (dc.gridRef = none ∧ t.columns.contains "geometry" = true)) :
    assign_inventory transFn geomOf σ dc invNew true
      = .ok (σ, { dc with invRef := some invNew }) ∧
    ∃ σ2 dc2, assign_inventory transFn geomOf σ dc invNew false
        = .ok (σ2, dc2) ∧
      dc2.objId ≠ dc.objId ∧
      dc2.invRef = some invNew ∧
      dc2.gridRef = dc.gridRef ∧
      dc2.treeRef = dc.treeRef ∧
      (∀ r, r < σ.next → σ2.lookup r = σ.lookup r) := by
  constructor
  · rfl
  · have hres : assign_inventory transFn geomOf σ dc invNew false =
        eoDataCubeInit transFn geomOf σ none dc.gridRef (some rt) none none
          (some invNew) := by
      unfold assign_inventory
      rw [htreeRef]
      simp only [Bool.false_eq_true, if_false]
    rw [hres, eoDataCubeInit_fromInv transFn geomOf σ dc.gridRef rt rr invNew
      t htree hinv hinvlt hgrid]
    refine ⟨_, _, rfl, ?_, rfl, rfl, htreeRef.symm, ?_⟩
    · show σ.next + 1 ≠ dc.objId
      omega
    · intro r hr
      show ((σ.alloc (.dimsO (t.columns.erase "filepath"))).2).lookup r
        = σ.lookup r
      exact lookup_alloc_ne σ _ r (Nat.ne_of_lt hr)

/-- Witness for C10 at a concrete store: a cube with a directory tree and a
grid receives a new one-row table. -/
theorem C10_assign_inventory_semantics_witness :
    assign_inventory (fun _ => .error ()) (fun _ => Val.null) c10Store c10DC
        5 true = .ok (c10Store, { c10DC with invRef := some 5 }) ∧
    ∃ σ2 dc2, assign_inventory (fun _ => .error ()) (fun _ => Val.null)
        c10Store c10DC 5 false = .ok (σ2, dc2) ∧
      dc2.objId ≠ c10DC.objId ∧
      dc2.invRef = some 5 ∧
      dc2.gridRef = c10DC.gridRef ∧
      dc2.treeRef = c10DC.treeRef ∧
      (∀ r, r < c10Store.next → σ2.lookup r = c10Store.lookup r) :=
  C10_assign_inventory_semantics (fun _ => .error ()) (fun _ => Val.null)
    c10Store c10DC 5 1 2 invTimeB (by decide) rfl rfl rfl (by decide)
    (Or.inl ⟨4, 9, rfl, by decide, rfl⟩)

/-- Lookup in an extended store agrees below the old frontier. -/
theorem storeLe_lookup {a b : Store} (h : StoreLe a b) (r : Nat)
    (hr : r < a.next) : b.lookup r = a.lookup r := h.2 r hr

/-- C8 (amended): clone() (deepcopy) returns a cube whose inventory table,
dimensions list and grid are freshly allocated objects, with the translator
reference taken over as the same immutable function value; the new cells are
disjoint from the original's, so writing through any of the clone's mutable
attributes leaves everything the original references unchanged, and
conversely.  The inventory and grid hold values equal to the original's, and
so does the dimensions list whenever the original's dimensions list is
non-empty; but on the reduced-capability cube (empty dimensions list) the
constructor re-run by deepcopy finds `if dimensions:` falsy at line 61 and
re-derives the clone's dimensions as the inventory columns minus filepath. -/
theorem C8_clone_amended (transFn : Translator)
    (geomOf : String → Val) (σ : Store) (dc : DCRef) (rf rd ri : Nat)
    (fl dl : List String) (t : Inventory)
    (hrf : dc.filepathsRef = some rf)
    (hlf : σ.lookup rf = some (.strsO fl)) (hfl : fl ≠ [])
    (hrd : dc.dimsRef = some rd)
    (hld : σ.lookup rd = some (.dimsO dl))
    (hri : dc.invRef = some ri) (hli : σ.lookup ri = some (.invO t))
    (hgrid : (∃ rg g, dc.gridRef = some rg ∧ σ.lookup rg = some (.gridO g)) ∨
      (dc.gridRef = none ∧ t.columns.contains "geometry" = true))
    (hwf : ∀ r ∈ mutRefs dc, r < σ.next) :
    ∃ σ2 dc2, deepcopyDC transFn geomOf σ dc = .ok (σ2, dc2) ∧
      readRef σ2 dc2.invRef = readRef σ2 dc.invRef ∧
      (dl ≠ [] → readRef σ2 dc2.dimsRef = readRef σ2 dc.dimsRef) ∧
      (dl = [] → readRef σ2 dc2.dimsRef
        = some (.dimsO (t.columns.erase "filepath"))) ∧
      readRef σ2 dc2.gridRef = readRef σ2 dc.gridRef ∧
      dc2.translator = dc.translator ∧
      (∀ a ∈ mutRefs dc2, ∀ b ∈ mutRefs dc, a ≠ b) ∧
      (∀ a ∈ mutRefs dc2, ∀ o, ∀ b ∈ mutRefs dc,
        (σ2.write a o).lookup b = σ2.lookup b) ∧
      (∀ b ∈ mutRefs dc, ∀ o, ∀ a ∈ mutRefs dc2,
        (σ2.write b o).lookup a = σ2.lookup a) := by
  have hwri : ri < σ.next := hwf ri (by simp [mutRefs, hri])
  have hwrd : rd < σ.next := hwf rd (by simp [mutRefs, hrd])
  have h1 : deepcopyObj σ dc.filepathsRef
      = ((σ.alloc (.strsO fl)).2, some σ.next) := by
    rw [hrf]
    exact deepcopyObj_copy σ rf _ hlf (fun rr2 => by simp)
  rcases hgrid with ⟨rg, g, hgr, hglook⟩ | ⟨hgnone, hgeom⟩
  all_goals
    obtain ⟨σ3, tree2, h3⟩ : ∃ s t2,
        deepcopyObj ((fun s0 => (deepcopyObj s0 dc.gridRef).1)
          ((σ.alloc (.strsO fl)).2)) dc.treeRef = (s, t2) := ⟨_, _, rfl⟩
  · -- grid present
    have hwrg : rg < σ.next := hwf rg (by simp [mutRefs, hgr])
    have h2 : deepcopyObj ((σ.alloc (.strsO fl)).2) dc.gridRef
        = ((((σ.alloc (.strsO fl)).2).alloc (.gridO g)).2,
           some ((σ.alloc (.strsO fl)).2).next) := by
      rw [hgr]
      refine deepcopyObj_copy _ rg _ ?_ (fun rr2 => by simp)
      rw [lookup_alloc_ne σ _ rg (Nat.ne_of_lt hwrg)]
      exact hglook
    have h3' : deepcopyObj ((((σ.alloc (.strsO fl)).2).alloc
        (.gridO g)).2) dc.treeRef = (σ3, tree2) := by
      have := h3
      rw [show ((fun s0 => (deepcopyObj s0 dc.gridRef).1)
          ((σ.alloc (.strsO fl)).2))
        = ((((σ.alloc (.strsO fl)).2).alloc (.gridO g)).2) by
          simp only [h2]] at this
      exact this
    have le23 : StoreLe ((((σ.alloc (.strsO fl)).2).alloc (.gridO g)).2) σ3 := by
      have h := deepcopyObj_le ((((σ.alloc (.strsO fl)).2).alloc
        (.gridO g)).2) dc.treeRef
      rw [h3'] at h
      exact h
    have hn1 : ((σ.alloc (.strsO fl)).2).next = σ.next + 1 := rfl
    have hn2 : ((((σ.alloc (.strsO fl)).2).alloc (.gridO g)).2).next
        = σ.next + 2 := rfl
    have hn3 : σ.next + 2 ≤ σ3.next := by
      rw [← hn2]
      exact le23.1
    have h4 : deepcopyObj σ3 dc.dimsRef
        = ((σ3.alloc (.dimsO dl)).2, some σ3.next) := by
      rw [hrd]
      refine deepcopyObj_copy σ3 rd _ ?_ (fun rr2 => by simp)
      rw [storeLe_lookup le23 rd (by omega)]
      rw [lookup_alloc_ne _ _ rd (by rw [hn1]; omega),
        lookup_alloc_ne σ _ rd (Nat.ne_of_lt hwrd)]
      exact hld
    have h5 : deepcopyObj ((σ3.alloc (.dimsO dl)).2) dc.invRef
        = ((((σ3.alloc (.dimsO dl)).2).alloc (.invO t)).2,
           some ((σ3.alloc (.dimsO dl)).2).next) := by
      rw [hri]
      refine deepcopyObj_copy _ ri _ ?_ (fun rr2 => by simp)
      rw [lookup_alloc_ne σ3 _ ri (by omega), storeLe_lookup le23 ri (by omega),
        lookup_alloc_ne _ _ ri (by rw [hn1]; omega),
        lookup_alloc_ne σ _ ri (Nat.ne_of_lt hwri)]
      exact hli
    have hn4 : ((σ3.alloc (.dimsO dl)).2).next = σ3.next + 1 := rfl
    have hn5 : ((((σ3.alloc (.dimsO dl)).2).alloc (.invO t)).2).next
        = σ3.next + 2 := rfl
    -- lookups in the final pre-bump store
    have lk_fps : ((((σ3.alloc (.dimsO dl)).2).alloc (.invO t)).2).lookup
        σ.next = some (.strsO fl) := by
      rw [lookup_alloc_ne _ _ σ.next (by rw [hn4]; omega),
        lookup_alloc_ne σ3 _ σ.next (by omega),
        storeLe_lookup le23 σ.next (by omega),
        lookup_alloc_ne _ _ σ.next (by rw [hn1]; omega)]
      exact lookup_alloc_self σ _
    have lk_grid : ((((σ3.alloc (.dimsO dl)).2).alloc (.invO t)).2).lookup
        (σ.next + 1) = some (.gridO g) := by
      rw [lookup_alloc_ne _ _ (σ.next + 1) (by rw [hn4]; omega),
        lookup_alloc_ne σ3 _ (σ.next + 1) (by omega),
        storeLe_lookup le23 (σ.next + 1) (by omega)]
      have := lookup_alloc_self ((σ.alloc (.strsO fl)).2) (HObj.gridO g)
      rw [hn1] at this
      exact this
    have lk_dims : ((((σ3.alloc (.dimsO dl)).2).alloc (.invO t)).2).lookup
        σ3.next = some (.dimsO dl) := by
      rw [lookup_alloc_ne _ _ σ3.next (by rw [hn4]; omega)]
      exact lookup_alloc_self σ3 _
    have lk_inv : ((((σ3.alloc (.dimsO dl)).2).alloc (.invO t)).2).lookup
        (σ3.next + 1) = some (.invO t) := by
      have := lookup_alloc_self ((σ3.alloc (.dimsO dl)).2) (HObj.invO t)
      rw [hn4] at this
      exact this
    have lk_old : ∀ r, r < σ.next →
        ((((σ3.alloc (.dimsO dl)).2).alloc (.invO t)).2).lookup r
          = σ.lookup r := by
      intro r hr
      rw [lookup_alloc_ne _ _ r (by rw [hn4]; omega),
        lookup_alloc_ne σ3 _ r (by omega),
        storeLe_lookup le23 r (by omega),
        lookup_alloc_ne _ _ r (by rw [hn1]; omega),
        lookup_alloc_ne σ _ r (Nat.ne_of_lt hr)]
    have hdc : deepcopyDC transFn geomOf σ dc
        = eoDataCubeInit transFn geomOf
            ((((σ3.alloc (.dimsO dl)).2).alloc (.invO t)).2) (some σ.next)
            (some (σ.next + 1)) tree2 dc.translator (some σ3.next)
            (some (σ3.next + 1)) := by
      unfold deepcopyDC
      rw [h1]
      rw [show ((σ.alloc (.strsO fl)).2).next = σ.next + 1 from rfl] at h2
      simp only [h2, h3', h4, h5, hn4]
    cases dl with
    | cons d ds =>
      rw [eoDataCubeInit_given transFn geomOf _ (some σ.next) (some (σ.next + 1))
        tree2 dc.translator (some σ3.next) (σ3.next + 1) t
        (refTruthy_strs _ σ.next fl lk_fps hfl)
        (refTruthy_dims _ σ3.next (d :: ds) lk_dims (by simp)) lk_inv
        (Or.inl (refTruthy_grid _ (σ.next + 1) g lk_grid))] at hdc
      refine ⟨_, _, hdc, ?_, ?_, ?_, ?_, rfl, ?_, ?_, ?_⟩
      · show Store.lookup _ (σ3.next + 1) = readRef _ dc.invRef
        rw [hri]
        show Store.lookup _ (σ3.next + 1) = Store.lookup _ ri
        show ((((σ3.alloc (.dimsO (d :: ds))).2).alloc (.invO t)).2).lookup
            (σ3.next + 1)
          = ((((σ3.alloc (.dimsO (d :: ds))).2).alloc (.invO t)).2).lookup ri
        rw [lk_inv, lk_old ri hwri, hli]
      · intro hne
        show Store.lookup _ σ3.next = readRef _ dc.dimsRef
        rw [hrd]
        show ((((σ3.alloc (.dimsO (d :: ds))).2).alloc (.invO t)).2).lookup
            σ3.next
          = ((((σ3.alloc (.dimsO (d :: ds))).2).alloc (.invO t)).2).lookup rd
        rw [lk_dims, lk_old rd hwrd, hld]
      · intro h
        exact absurd h (List.cons_ne_nil d ds)
      · show Store.lookup _ (σ.next + 1) = readRef _ dc.gridRef
        rw [hgr]
        show ((((σ3.alloc (.dimsO (d :: ds))).2).alloc (.invO t)).2).lookup
            (σ.next + 1)
          = ((((σ3.alloc (.dimsO (d :: ds))).2).alloc (.invO t)).2).lookup rg
        rw [lk_grid, lk_old rg hwrg, hglook]
      · intro a ha b hb
        have hblt : b < σ.next := hwf b hb
        simp [mutRefs] at ha
        rcases ha with h | h | h <;> omega
      · intro a ha o b hb
        have hblt : b < σ.next := hwf b hb
        have hne : b ≠ a := by
          simp [mutRefs] at ha
          rcases ha with h | h | h <;> omega
        exact lookup_write_ne _ a b o hne
      · intro b hb o a ha
        have hblt : b < σ.next := hwf b hb
        have hne : a ≠ b := by
          simp [mutRefs] at ha
          rcases ha with h | h | h <;> omega
        exact lookup_write_ne _ b a o hne
    | nil =>
      rw [eoDataCubeInit_emptyDims transFn geomOf _ (some σ.next)
        (some (σ.next + 1)) tree2 dc.translator σ3.next (σ3.next + 1) t
        (refTruthy_strs _ σ.next fl lk_fps hfl) lk_dims lk_inv
        (by omega) (Or.inl ⟨σ.next + 1, g, rfl, by omega, lk_grid⟩)] at hdc
      refine ⟨_, _, hdc, ?_, ?_, ?_, ?_, rfl, ?_, ?_, ?_⟩
      · show Store.lookup _ (σ3.next + 1) = readRef _ dc.invRef
        rw [hri]
        show (((((σ3.alloc (.dimsO [])).2).alloc (.invO t)).2).alloc
            (.dimsO (t.columns.erase "filepath"))).2.lookup (σ3.next + 1)
          = (((((σ3.alloc (.dimsO [])).2).alloc (.invO t)).2).alloc
            (.dimsO (t.columns.erase "filepath"))).2.lookup ri
        rw [lookup_alloc_ne _ _ (σ3.next + 1) (by omega),
          lookup_alloc_ne _ _ ri (by omega), lk_inv, lk_old ri hwri, hli]
      · intro hne
        exact absurd rfl hne
      · intro _
        show (((((σ3.alloc (.dimsO [])).2).alloc (.invO t)).2).alloc
            (.dimsO (t.columns.erase "filepath"))).2.lookup
            ((((σ3.alloc (.dimsO [])).2).alloc (.invO t)).2).next
          = some (.dimsO (t.columns.erase "filepath"))
        exact lookup_alloc_self _ _
      · show Store.lookup _ (σ.next + 1) = readRef _ dc.gridRef
        rw [hgr]
        show (((((σ3.alloc (.dimsO [])).2).alloc (.invO t)).2).alloc
            (.dimsO (t.columns.erase "filepath"))).2.lookup (σ.next + 1)
          = (((((σ3.alloc (.dimsO [])).2).alloc (.invO t)).2).alloc
            (.dimsO (t.columns.erase "filepath"))).2.lookup rg
        rw [lookup_alloc_ne _ _ (σ.next + 1) (by omega),
          lookup_alloc_ne _ _ rg (by omega), lk_grid, lk_old rg hwrg, hglook]
      · intro a ha b hb
        have hblt : b < σ.next := hwf b hb
        simp [mutRefs] at ha
        rcases ha with h | h | h <;> omega
      · intro a ha o b hb
        have hblt : b < σ.next := hwf b hb
        have hne : b ≠ a := by
          simp [mutRefs] at ha
          rcases ha with h | h | h <;> omega
        exact lookup_write_ne _ a b o hne
      · intro b hb o a ha
        have hblt : b < σ.next := hwf b hb
        have hne : a ≠ b := by
          simp [mutRefs] at ha
          rcases ha with h | h | h <;> omega
        exact lookup_write_ne _ b a o hne
  · -- grid absent, geometry column present
    have h3' : deepcopyObj ((σ.alloc (.strsO fl)).2) dc.treeRef
        = (σ3, tree2) := by
      have := h3
      rw [show ((fun s0 => (deepcopyObj s0 dc.gridRef).1)
          ((σ.alloc (.strsO fl)).2)) = ((σ.alloc (.strsO fl)).2) by
        simp only [hgnone, deepcopyObj]] at this
      exact this
    have le23 : StoreLe ((σ.alloc (.strsO fl)).2) σ3 := by
      have h := deepcopyObj_le ((σ.alloc (.strsO fl)).2) dc.treeRef
      rw [h3'] at h
      exact h
    have hn1 : ((σ.alloc (.strsO fl)).2).next = σ.next + 1 := rfl
    have hn3 : σ.next + 1 ≤ σ3.next := by
      rw [← hn1]
      exact le23.1
    have h4 : deepcopyObj σ3 dc.dimsRef
        = ((σ3.alloc (.dimsO dl)).2, some σ3.next) := by
      rw [hrd]
      refine deepcopyObj_copy σ3 rd _ ?_ (fun rr2 => by simp)
      rw [storeLe_lookup le23 rd (by omega),
        lookup_alloc_ne σ _ rd (Nat.ne_of_lt hwrd)]
      exact hld
    have h5 : deepcopyObj ((σ3.alloc (.dimsO dl)).2) dc.invRef
        = ((((σ3.alloc (.dimsO dl)).2).alloc (.invO t)).2,
           some ((σ3.alloc (.dimsO dl)).2).next) := by
      rw [hri]
      refine deepcopyObj_copy _ ri _ ?_ (fun rr2 => by simp)
      rw [lookup_alloc_ne σ3 _ ri (by omega), storeLe_lookup le23 ri (by omega),
        lookup_alloc_ne σ _ ri (Nat.ne_of_lt hwri)]
      exact hli
    have hn4 : ((σ3.alloc (.dimsO dl)).2).next = σ3.next + 1 := rfl
    have hn5 : ((((σ3.alloc (.dimsO dl)).2).alloc (.invO t)).2).next
        = σ3.next + 2 := rfl
    have lk_fps : ((((σ3.alloc (.dimsO dl)).2).alloc (.invO t)).2).lookup
        σ.next = some (.strsO fl) := by
      rw [lookup_alloc_ne _ _ σ.next (by rw [hn4]; omega),
        lookup_alloc_ne σ3 _ σ.next (by omega),
        storeLe_lookup le23 σ.next (by omega)]
      exact lookup_alloc_self σ _
    have lk_dims : ((((σ3.alloc (.dimsO dl)).2).alloc (.invO t)).2).lookup
        σ3.next = some (.dimsO dl) := by
      rw [lookup_alloc_ne _ _ σ3.next (by rw [hn4]; omega)]
      exact lookup_alloc_self σ3 _
    have lk_inv : ((((σ3.alloc (.dimsO dl)).2).alloc (.invO t)).2).lookup
        (σ3.next + 1) = some (.invO t) := by
      have := lookup_alloc_self ((σ3.alloc (.dimsO dl)).2) (HObj.invO t)
      rw [hn4] at this
      exact this
    have lk_old : ∀ r, r < σ.next →
        ((((σ3.alloc (.dimsO dl)).2).alloc (.invO t)).2).lookup r
          = σ.lookup r := by
      intro r hr
      rw [lookup_alloc_ne _ _ r (by rw [hn4]; omega),
        lookup_alloc_ne σ3 _ r (by omega),
        storeLe_lookup le23 r (by omega),
        lookup_alloc_ne σ _ r (Nat.ne_of_lt hr)]
    have hdc : deepcopyDC transFn geomOf σ dc
        = eoDataCubeInit transFn geomOf
            ((((σ3.alloc (.dimsO dl)).2).alloc (.invO t)).2) (some σ.next)
            none tree2 dc.translator (some σ3.next)
            (some (σ3.next + 1)) := by
      unfold deepcopyDC
      rw [h1, hgnone]
      simp only [deepcopyObj_none, h3', h4, h5, hn4]
    cases dl with
    | cons d ds =>
      rw [eoDataCubeInit_given transFn geomOf _ (some σ.next) none
        tree2 dc.translator (some σ3.next) (σ3.next + 1) t
        (refTruthy_strs _ σ.next fl lk_fps hfl)
        (refTruthy_dims _ σ3.next (d :: ds) lk_dims (by simp)) lk_inv
        (Or.inr ⟨rfl, hgeom⟩)] at hdc
      refine ⟨_, _, hdc, ?_, ?_, ?_, ?_, rfl, ?_, ?_, ?_⟩
      · show Store.lookup _ (σ3.next + 1) = readRef _ dc.invRef
        rw [hri]
        show ((((σ3.alloc (.dimsO (d :: ds))).2).alloc (.invO t)).2).lookup
            (σ3.next + 1)
          = ((((σ3.alloc (.dimsO (d :: ds))).2).alloc (.invO t)).2).lookup ri
        rw [lk_inv, lk_old ri hwri, hli]
      · intro hne
        show Store.lookup _ σ3.next = readRef _ dc.dimsRef
        rw [hrd]
        show ((((σ3.alloc (.dimsO (d :: ds))).2).alloc (.invO t)).2).lookup
            σ3.next
          = ((((σ3.alloc (.dimsO (d :: ds))).2).alloc (.invO t)).2).lookup rd
        rw [lk_dims, lk_old rd hwrd, hld]
      · intro h
        exact absurd h (List.cons_ne_nil d ds)
      · rw [hgnone]
      · intro a ha b hb
        have hblt : b < σ.next := hwf b hb
        simp [mutRefs] at ha
        rcases ha with h | h <;> omega
      · intro a ha o b hb
        have hblt : b < σ.next := hwf b hb
        have hne : b ≠ a := by
          simp [mutRefs] at ha
          rcases ha with h | h <;> omega
        exact lookup_write_ne _ a b o hne
      · intro b hb o a ha
        have hblt : b < σ.next := hwf b hb
        have hne : a ≠ b := by
          simp [mutRefs] at ha
          rcases ha with h | h <;> omega
        exact lookup_write_ne _ b a o hne
    | nil =>
      rw [eoDataCubeInit_emptyDims transFn geomOf _ (some σ.next)
        none tree2 dc.translator σ3.next (σ3.next + 1) t
        (refTruthy_strs _ σ.next fl lk_fps hfl) lk_dims lk_inv
        (by omega) (Or.inr ⟨rfl, hgeom⟩)] at hdc
      refine ⟨_, _, hdc, ?_, ?_, ?_, ?_, rfl, ?_, ?_, ?_⟩
      · show Store.lookup _ (σ3.next + 1) = readRef _ dc.invRef
        rw [hri]
        show (((((σ3.alloc (.dimsO [])).2).alloc (.invO t)).2).alloc
            (.dimsO (t.columns.erase "filepath"))).2.lookup (σ3.next + 1)
          = (((((σ3.alloc (.dimsO [])).2).alloc (.invO t)).2).alloc
            (.dimsO (t.columns.erase "filepath"))).2.lookup ri
        rw [lookup_alloc_ne _ _ (σ3.next + 1) (by omega),
          lookup_alloc_ne _ _ ri (by omega), lk_inv, lk_old ri hwri, hli]
      · intro hne
        exact absurd rfl hne
      · intro _
        show (((((σ3.alloc (.dimsO [])).2).alloc (.invO t)).2).alloc
            (.dimsO (t.columns.erase "filepath"))).2.lookup
            ((((σ3.alloc (.dimsO [])).2).alloc (.invO t)).2).next
          = some (.dimsO (t.columns.erase "filepath"))
        exact lookup_alloc_self _ _
      · rw [hgnone]
      · intro a ha b hb
        have hblt : b < σ.next := hwf b hb
        simp [mutRefs] at ha
        rcases ha with h | h <;> omega
      · intro a ha o b hb
        have hblt : b < σ.next := hwf b hb
        have hne : b ≠ a := by
          simp [mutRefs] at ha
          rcases ha with h | h <;> omega
        exact lookup_write_ne _ a b o hne
      · intro b hb o a ha
        have hblt : b < σ.next := hwf b hb
        have hne : a ≠ b := by
          simp [mutRefs] at ha
          rcases ha with h | h <;> omega
        exact lookup_write_ne _ b a o hne

/-- Witness for the amended C8 at a concrete store: a cube with non-empty
filepaths and dimensions lists, an inventory, a grid and a translator token
is cloned. -/
theorem C8_clone_amended_witness :
    ∃ σ2 dc2, deepcopyDC (fun _ => .error ()) (fun _ => Val.null) c8Store c8DC
        = .ok (σ2, dc2) ∧
      readRef σ2 dc2.invRef = readRef σ2 c8DC.invRef ∧
      ((["time"] : List String) ≠ [] →
        readRef σ2 dc2.dimsRef = readRef σ2 c8DC.dimsRef) ∧
      ((["time"] : List String) = [] →
        readRef σ2 dc2.dimsRef
          = some (.dimsO (invTime.columns.erase "filepath"))) ∧
      readRef σ2 dc2.gridRef = readRef σ2 c8DC.gridRef ∧
      dc2.translator = c8DC.translator ∧
      (∀ a ∈ mutRefs dc2, ∀ b ∈ mutRefs c8DC, a ≠ b) ∧
      (∀ a ∈ mutRefs dc2, ∀ o, ∀ b ∈ mutRefs c8DC,
        (σ2.write a o).lookup b = σ2.lookup b) ∧
      (∀ b ∈ mutRefs c8DC, ∀ o, ∀ a ∈ mutRefs dc2,
        (σ2.write b o).lookup a = σ2.lookup a) :=
  C8_clone_amended (fun _ => .error ()) (fun _ => Val.null)
    c8Store c8DC 0 1 2 ["a.tif"] ["time"] invTime rfl rfl (by simp) rfl rfl
    rfl rfl (Or.inl ⟨3, 5, rfl, rfl⟩) (by decide)

/-- C8 counterexample to the original claim: cloning the reduced-capability
cube (empty dimensions list) succeeds, but the clone's dimensions object
holds the inventory columns minus filepath rather than the original's empty
list, because the constructor re-run by clone() finds `if dimensions:` falsy
at line 61 and re-derives them; and a cube whose filepaths list is empty with
no directory tree cannot be cloned at all, since the constructor's
`elif inventory:` test at line 56 raises the pandas truth-ambiguity
ValueError. -/
theorem C8_counterexample_clone_dims :
    deepcopyDC (fun _ => .error ()) (fun _ => Val.null) c8bStore c8bDC
        = .ok (c8bResStore, c8bResDC) ∧
      readRef c8bResStore c8bResDC.dimsRef
        = some (.dimsO ["time", "geometry"]) ∧
      readRef c8bResStore c8bDC.dimsRef = some (.dimsO []) ∧
      readRef c8bResStore c8bResDC.dimsRef
        ≠ readRef c8bResStore c8bDC.dimsRef ∧
      deepcopyDC (fun _ => .error ()) (fun _ => Val.null) c8cStore c8cDC
        = .error .truthAmbiguous :=
  ⟨rfl, rfl, rfl, by decide, rfl⟩

end Yeoda
